import Mathlib

/-!
Verification development for the `errorck` per-translation-unit classification
engine (`src/main.cpp`).  The engine walks a Clang AST, classifies every call
to a "watched" function into one of nine handling categories, and emits one
row per call into a SQLite sink.

The shallow embedding below mirrors the source:

* `Expr` / `Stmt` model the fragment of the Clang AST the engine inspects:
  declaration references (with variable identity, name, and storage class),
  direct calls (with call-expression identity standing in for node pointers),
  parenthesised expressions, implicit and explicit casts (the latter with a
  void-type flag), cleanup/temporary wrapper nodes, unary and binary
  operators, and the statement kinds enumerated by the engine.  Call and
  variable identity (`cid` / `vid`) model C++ pointer identity; well-formed
  inputs use distinct ids.  Calls carry their direct-callee name (`none` for
  indirect calls); callee subtrees of indirect calls and compound-assignment
  operators are outside the modelled input language.
* Each analysis routine of `ErrorCheckVisitor` (and the free functions it
  uses) is translated one-for-one; the name of each Lean definition matches
  the C++ function it embeds.
* `SqliteWriter` is modelled as a row list plus the sticky error message;
  bind/step failures of the underlying library are an `Option String` input.
-/

/-- Source location as produced by `getPresumedLoc` (file, line, column). -/
structure SrcLoc where
  file : String
  line : Nat
  col : Nat
  deriving DecidableEq, Repr

/-- A variable declaration: identity (`vid` models the `VarDecl *` pointer),
written name, and `hasLocalStorage()`. -/
structure VarInfo where
  vid : Nat
  vname : String
  localStorage : Bool
  deriving DecidableEq, Repr

/-- `enum class ErrorReportingType` from the source. -/
inductive ErrorReportingType where
  | kReturnValue
  | kErrno
  deriving DecidableEq, Repr

/-- `enum class HandlingType` from the source. -/
inductive HandlingType where
  | kNone
  | kIgnored
  | kCastToVoid
  | kAssignedNotRead
  | kBranchedNoCatchall
  | kBranchedWithCatchall
  | kPropagated
  | kPassedToHandlerFn
  | kUsedOther
  | kLoggedNotHandled
  deriving DecidableEq, Repr

/-- `HandlingTypeName`: the category string written to the sink. -/
def handlingTypeName : HandlingType → String
  | .kIgnored => "ignored"
  | .kCastToVoid => "cast_to_void"
  | .kAssignedNotRead => "assigned_not_read"
  | .kBranchedNoCatchall => "branched_no_catchall"
  | .kBranchedWithCatchall => "branched_with_catchall"
  | .kPropagated => "propagated"
  | .kPassedToHandlerFn => "passed_to_handler_fn"
  | .kUsedOther => "used_other"
  | .kLoggedNotHandled => "logged_not_handled"
  | .kNone => ""

/-- The registry built by `LoadNotableFunctions`: watched functions with their
reporting kind, plus the handler and logger name sets. -/
structure Cfg where
  notable : List (String × ErrorReportingType)
  handlers : List String
  loggers : List String

/-- Binary operator kinds the engine distinguishes: plain assignment
(`BO_Assign`) versus every non-assignment operator. -/
inductive BinOp where
  | assign
  | other
  deriving DecidableEq, Repr

/-- Expressions.  `callE` carries the call-expression identity `cid`, the
direct callee name (`none` when there is no direct callee), arguments, and
the `getExprLoc()` location.  `cleanups` stands for the
`ExprWithCleanups` / `CXXBindTemporaryExpr` / `MaterializeTemporaryExpr`
wrapper family, which the engine treats uniformly. -/
inductive Expr where
  | declRef (v : VarInfo) (loc : SrcLoc)
  | intLit (n : Int)
  | callE (cid : Nat) (callee : Option String) (args : List Expr) (loc : SrcLoc)
  | paren (e : Expr)
  | implicitCast (e : Expr)
  | explicitCast (isVoid : Bool) (e : Expr)
  | cleanups (e : Expr)
  | unaryDeref (e : Expr)
  | unaryOther (e : Expr)
  | binop (op : BinOp) (l r : Expr)

/-- Statements.  Expression statements are `exprS`; `declS` is a `DeclStmt`
with its declared variables and optional initialisers. -/
inductive Stmt where
  | exprS (e : Expr)
  | declS (ds : List (VarInfo × Option Expr))
  | compound (ss : List Stmt)
  | ifS (cond : Expr) (thn : Stmt) (els : Option Stmt)
  | whileS (cond : Expr) (body : Stmt)
  | doS (body : Stmt) (cond : Expr)
  | forS (ini : Option Stmt) (cond : Option Expr) (inc : Option Expr) (body : Stmt)
  | switchS (cond : Expr) (body : Stmt)
  | caseS (sub : Stmt)
  | defaultS (sub : Stmt)
  | labelS (sub : Stmt)
  | attributedS (sub : Stmt)
  | returnS (val : Option Expr)
  | breakS
  | nullS

/-- `Expr::IgnoreParenImpCasts()`: strip parentheses and implicit casts. -/
def ignoreParenImpCasts : Expr → Expr
  | .paren e => ignoreParenImpCasts e
  | .implicitCast e => ignoreParenImpCasts e
  | e => e

/-- `IsErrnoAccessorName`. -/
def isErrnoAccessorName (n : String) : Bool :=
  n == "__errno_location" || n == "__error"

/-- Whether an optional direct-callee name is an errno accessor. -/
def calleeIsErrnoAccessor : Option String → Bool
  | some n => isErrnoAccessorName n
  | none => false

/-- `IsErrnoExpr`: a reference to `errno` in one of its syntactic forms.
The source strips `IgnoreParenImpCasts` before each case split; stripping is
inlined here as the `paren` / `implicitCast` cases. -/
def isErrnoExpr : Expr → Bool
  | .paren e => isErrnoExpr e
  | .implicitCast e => isErrnoExpr e
  | .declRef v _ => v.vname == "errno"
  | .unaryDeref sub => isErrnoExpr sub
  | .callE _ callee _ _ => calleeIsErrnoAccessor callee
  | _ => false

/-- `getExprLoc()` for the expression forms whose location the engine records
(declaration references and calls); wrappers delegate to their operand. -/
def Expr.loc : Expr → SrcLoc
  | .declRef _ l => l
  | .callE _ _ _ l => l
  | .intLit _ => ⟨"", 0, 0⟩
  | .paren e => e.loc
  | .implicitCast e => e.loc
  | .explicitCast _ e => e.loc
  | .cleanups e => e.loc
  | .unaryDeref e => e.loc
  | .unaryOther e => e.loc
  | .binop _ l _ => l.loc

mutual
/-- `ErrnoReferenceVisitor` on an expression: does it read `errno`?  A plain
assignment whose left-hand side is an errno expression is skipped (only its
right-hand side is traversed), so `errno = 0` is not a reference. -/
def containsErrnoRefE : Expr → Bool
  | .declRef v _ => v.vname == "errno"
  | .intLit _ => false
  | .callE _ callee args _ => calleeIsErrnoAccessor callee || containsErrnoRefList args
  | .paren e => containsErrnoRefE e
  | .implicitCast e => containsErrnoRefE e
  | .explicitCast _ e => containsErrnoRefE e
  | .cleanups e => containsErrnoRefE e
  | .unaryDeref e => containsErrnoRefE e
  | .unaryOther e => containsErrnoRefE e
  | .binop op l r =>
    if op == .assign && isErrnoExpr l then containsErrnoRefE r
    else containsErrnoRefE l || containsErrnoRefE r

def containsErrnoRefList : List Expr → Bool
  | [] => false
  | e :: rest => containsErrnoRefE e || containsErrnoRefList rest
end

mutual
/-- `ContainsErrnoReference` on a statement. -/
def containsErrnoRefS : Stmt → Bool
  | .exprS e => containsErrnoRefE e
  | .declS ds => containsErrnoRefDecls ds
  | .compound ss => containsErrnoRefSs ss
  | .ifS c t e =>
    containsErrnoRefE c || containsErrnoRefS t ||
      (match e with | some s => containsErrnoRefS s | none => false)
  | .whileS c b => containsErrnoRefE c || containsErrnoRefS b
  | .doS b c => containsErrnoRefS b || containsErrnoRefE c
  | .forS ini c inc b =>
    (match ini with | some s => containsErrnoRefS s | none => false) ||
    (match c with | some e => containsErrnoRefE e | none => false) ||
    (match inc with | some e => containsErrnoRefE e | none => false) ||
    containsErrnoRefS b
  | .switchS c b => containsErrnoRefE c || containsErrnoRefS b
  | .caseS s => containsErrnoRefS s
  | .defaultS s => containsErrnoRefS s
  | .labelS s => containsErrnoRefS s
  | .attributedS s => containsErrnoRefS s
  | .returnS v => (match v with | some e => containsErrnoRefE e | none => false)
  | .breakS => false
  | .nullS => false

def containsErrnoRefSs : List Stmt → Bool
  | [] => false
  | s :: rest => containsErrnoRefS s || containsErrnoRefSs rest

def containsErrnoRefDecls : List (VarInfo × Option Expr) → Bool
  | [] => false
  | (_, some i) :: rest => containsErrnoRefE i || containsErrnoRefDecls rest
  | (_, none) :: rest => containsErrnoRefDecls rest
end

mutual
/-- `VarReferenceVisitor` on an expression: does it reference the variable
with identity `vid`?  No assignment skipping here, matching the source. -/
def containsVarRefE (vid : Nat) : Expr → Bool
  | .declRef v _ => v.vid == vid
  | .intLit _ => false
  | .callE _ _ args _ => containsVarRefList vid args
  | .paren e => containsVarRefE vid e
  | .implicitCast e => containsVarRefE vid e
  | .explicitCast _ e => containsVarRefE vid e
  | .cleanups e => containsVarRefE vid e
  | .unaryDeref e => containsVarRefE vid e
  | .unaryOther e => containsVarRefE vid e
  | .binop _ l r => containsVarRefE vid l || containsVarRefE vid r

def containsVarRefList (vid : Nat) : List Expr → Bool
  | [] => false
  | e :: rest => containsVarRefE vid e || containsVarRefList vid rest
end

mutual
/-- `ContainsVarReference` on a statement. -/
def containsVarRefS (vid : Nat) : Stmt → Bool
  | .exprS e => containsVarRefE vid e
  | .declS ds => containsVarRefDecls vid ds
  | .compound ss => containsVarRefSs vid ss
  | .ifS c t e =>
    containsVarRefE vid c || containsVarRefS vid t ||
      (match e with | some s => containsVarRefS vid s | none => false)
  | .whileS c b => containsVarRefE vid c || containsVarRefS vid b
  | .doS b c => containsVarRefS vid b || containsVarRefE vid c
  | .forS ini c inc b =>
    (match ini with | some s => containsVarRefS vid s | none => false) ||
    (match c with | some e => containsVarRefE vid e | none => false) ||
    (match inc with | some e => containsVarRefE vid e | none => false) ||
    containsVarRefS vid b
  | .switchS c b => containsVarRefE vid c || containsVarRefS vid b
  | .caseS s => containsVarRefS vid s
  | .defaultS s => containsVarRefS vid s
  | .labelS s => containsVarRefS vid s
  | .attributedS s => containsVarRefS vid s
  | .returnS v => (match v with | some e => containsVarRefE vid e | none => false)
  | .breakS => false
  | .nullS => false

def containsVarRefSs (vid : Nat) : List Stmt → Bool
  | [] => false
  | s :: rest => containsVarRefS vid s || containsVarRefSs vid rest

def containsVarRefDecls (vid : Nat) : List (VarInfo × Option Expr) → Bool
  | [] => false
  | (_, some i) :: rest => containsVarRefE vid i || containsVarRefDecls vid rest
  | (_, none) :: rest => containsVarRefDecls vid rest
end

mutual
/-- `CallReferenceVisitor` on an expression: does it contain the call
expression with identity `cid` (the node itself included)? -/
def containsCallRefE (cid : Nat) : Expr → Bool
  | .declRef _ _ => false
  | .intLit _ => false
  | .callE c _ args _ => c == cid || containsCallRefList cid args
  | .paren e => containsCallRefE cid e
  | .implicitCast e => containsCallRefE cid e
  | .explicitCast _ e => containsCallRefE cid e
  | .cleanups e => containsCallRefE cid e
  | .unaryDeref e => containsCallRefE cid e
  | .unaryOther e => containsCallRefE cid e
  | .binop _ l r => containsCallRefE cid l || containsCallRefE cid r

def containsCallRefList (cid : Nat) : List Expr → Bool
  | [] => false
  | e :: rest => containsCallRefE cid e || containsCallRefList cid rest
end

mutual
/-- `ContainsCallReference` on a statement. -/
def containsCallRefS (cid : Nat) : Stmt → Bool
  | .exprS e => containsCallRefE cid e
  | .declS ds => containsCallRefDecls cid ds
  | .compound ss => containsCallRefSs cid ss
  | .ifS c t e =>
    containsCallRefE cid c || containsCallRefS cid t ||
      (match e with | some s => containsCallRefS cid s | none => false)
  | .whileS c b => containsCallRefE cid c || containsCallRefS cid b
  | .doS b c => containsCallRefS cid b || containsCallRefE cid c
  | .forS ini c inc b =>
    (match ini with | some s => containsCallRefS cid s | none => false) ||
    (match c with | some e => containsCallRefE cid e | none => false) ||
    (match inc with | some e => containsCallRefE cid e | none => false) ||
    containsCallRefS cid b
  | .switchS c b => containsCallRefE cid c || containsCallRefS cid b
  | .caseS s => containsCallRefS cid s
  | .defaultS s => containsCallRefS cid s
  | .labelS s => containsCallRefS cid s
  | .attributedS s => containsCallRefS cid s
  | .returnS v => (match v with | some e => containsCallRefE cid e | none => false)
  | .breakS => false
  | .nullS => false

def containsCallRefSs (cid : Nat) : List Stmt → Bool
  | [] => false
  | s :: rest => containsCallRefS cid s || containsCallRefSs cid rest

def containsCallRefDecls (cid : Nat) : List (VarInfo × Option Expr) → Bool
  | [] => false
  | (_, some i) :: rest => containsCallRefE cid i || containsCallRefDecls cid rest
  | (_, none) :: rest => containsCallRefDecls cid rest
end

mutual
/-- `ReturnVarVisitor` / `ContainsReturnOfVar`: some return statement's value
references the variable. -/
def containsReturnOfVar (vid : Nat) : Stmt → Bool
  | .exprS _ => false
  | .declS _ => false
  | .compound ss => containsReturnOfVarSs vid ss
  | .ifS _ t e =>
    containsReturnOfVar vid t ||
      (match e with | some s => containsReturnOfVar vid s | none => false)
  | .whileS _ b => containsReturnOfVar vid b
  | .doS b _ => containsReturnOfVar vid b
  | .forS ini _ _ b =>
    (match ini with | some s => containsReturnOfVar vid s | none => false) ||
    containsReturnOfVar vid b
  | .switchS _ b => containsReturnOfVar vid b
  | .caseS s => containsReturnOfVar vid s
  | .defaultS s => containsReturnOfVar vid s
  | .labelS s => containsReturnOfVar vid s
  | .attributedS s => containsReturnOfVar vid s
  | .returnS v => (match v with | some e => containsVarRefE vid e | none => false)
  | .breakS => false
  | .nullS => false

def containsReturnOfVarSs (vid : Nat) : List Stmt → Bool
  | [] => false
  | s :: rest => containsReturnOfVar vid s || containsReturnOfVarSs vid rest
end

mutual
/-- `ReturnErrnoVisitor` / `ContainsReturnOfErrno`: some return statement's
value contains an errno reference. -/
def containsReturnOfErrno : Stmt → Bool
  | .exprS _ => false
  | .declS _ => false
  | .compound ss => containsReturnOfErrnoSs ss
  | .ifS _ t e =>
    containsReturnOfErrno t ||
      (match e with | some s => containsReturnOfErrno s | none => false)
  | .whileS _ b => containsReturnOfErrno b
  | .doS b _ => containsReturnOfErrno b
  | .forS ini _ _ b =>
    (match ini with | some s => containsReturnOfErrno s | none => false) ||
    containsReturnOfErrno b
  | .switchS _ b => containsReturnOfErrno b
  | .caseS s => containsReturnOfErrno s
  | .defaultS s => containsReturnOfErrno s
  | .labelS s => containsReturnOfErrno s
  | .attributedS s => containsReturnOfErrno s
  | .returnS v => (match v with | some e => containsErrnoRefE e | none => false)
  | .breakS => false
  | .nullS => false

def containsReturnOfErrnoSs : List Stmt → Bool
  | [] => false
  | s :: rest => containsReturnOfErrno s || containsReturnOfErrnoSs rest
end

/-- `VarUsageInfo` / `ErrnoUsageInfo`: how a value was used. -/
structure UseInfo where
  handler : Bool
  logger : Bool
  other : Bool
  deriving DecidableEq, Repr

/-- The empty usage record. -/
def UseInfo.nil : UseInfo := ⟨false, false, false⟩

/-- Pointwise disjunction of two usage records. -/
def UseInfo.join (a b : UseInfo) : UseInfo :=
  ⟨a.handler || b.handler, a.logger || b.logger, a.other || b.other⟩

/-- The visitors' argument-context stack top: `Context::{kOther,kLogger,kHandler}`. -/
inductive UCtx where
  | kOther
  | kLogger
  | kHandler
  deriving DecidableEq, Repr

/-- `Mark()`: record a use under the current context. -/
def markCtx : UCtx → UseInfo
  | .kHandler => ⟨true, false, false⟩
  | .kLogger => ⟨false, true, false⟩
  | .kOther => ⟨false, false, true⟩

/-- `IsCallInSet` on an optional direct-callee name. -/
def nameInSet (names : List String) : Option String → Bool
  | some n => names.contains n
  | none => false

/-- The argument context pushed when descending into a call's arguments:
handler and logger callees override, any other callee inherits the current
context. -/
def argContext (cfg : Cfg) (callee : Option String) (ctx : UCtx) : UCtx :=
  if nameInSet cfg.handlers callee then .kHandler
  else if nameInSet cfg.loggers callee then .kLogger
  else ctx

mutual
/-- `VarUsageVisitor` on an expression under an argument context: marks
references to the tracked variable and (as in the source) calls to the errno
accessors. -/
def varUsageE (cfg : Cfg) (vid : Nat) (ctx : UCtx) : Expr → UseInfo
  | .declRef v _ => if v.vid == vid then markCtx ctx else .nil
  | .intLit _ => .nil
  | .callE _ callee args _ =>
    let base := if calleeIsErrnoAccessor callee then markCtx ctx else .nil
    base.join (varUsageList cfg vid (argContext cfg callee ctx) args)
  | .paren e => varUsageE cfg vid ctx e
  | .implicitCast e => varUsageE cfg vid ctx e
  | .explicitCast _ e => varUsageE cfg vid ctx e
  | .cleanups e => varUsageE cfg vid ctx e
  | .unaryDeref e => varUsageE cfg vid ctx e
  | .unaryOther e => varUsageE cfg vid ctx e
  | .binop _ l r => (varUsageE cfg vid ctx l).join (varUsageE cfg vid ctx r)

def varUsageList (cfg : Cfg) (vid : Nat) (ctx : UCtx) : List Expr → UseInfo
  | [] => .nil
  | e :: rest => (varUsageE cfg vid ctx e).join (varUsageList cfg vid ctx rest)
end

mutual
/-- `AnalyzeVarUsage` on a statement (the visitor starts with an empty
context stack, so statement-level subexpressions are traversed under
`kOther`). -/
def varUsageS (cfg : Cfg) (vid : Nat) : Stmt → UseInfo
  | .exprS e => varUsageE cfg vid .kOther e
  | .declS ds => varUsageDecls cfg vid ds
  | .compound ss => varUsageSs cfg vid ss
  | .ifS c t e =>
    ((varUsageE cfg vid .kOther c).join (varUsageS cfg vid t)).join
      (match e with | some s => varUsageS cfg vid s | none => .nil)
  | .whileS c b => (varUsageE cfg vid .kOther c).join (varUsageS cfg vid b)
  | .doS b c => (varUsageS cfg vid b).join (varUsageE cfg vid .kOther c)
  | .forS ini c inc b =>
    (((match ini with | some s => varUsageS cfg vid s | none => .nil).join
      (match c with | some e => varUsageE cfg vid .kOther e | none => .nil)).join
      (match inc with | some e => varUsageE cfg vid .kOther e | none => .nil)).join
      (varUsageS cfg vid b)
  | .switchS c b => (varUsageE cfg vid .kOther c).join (varUsageS cfg vid b)
  | .caseS s => varUsageS cfg vid s
  | .defaultS s => varUsageS cfg vid s
  | .labelS s => varUsageS cfg vid s
  | .attributedS s => varUsageS cfg vid s
  | .returnS v => (match v with | some e => varUsageE cfg vid .kOther e | none => .nil)
  | .breakS => .nil
  | .nullS => .nil

def varUsageSs (cfg : Cfg) (vid : Nat) : List Stmt → UseInfo
  | [] => .nil
  | s :: rest => (varUsageS cfg vid s).join (varUsageSs cfg vid rest)

def varUsageDecls (cfg : Cfg) (vid : Nat) : List (VarInfo × Option Expr) → UseInfo
  | [] => .nil
  | (_, some i) :: rest => (varUsageE cfg vid .kOther i).join (varUsageDecls cfg vid rest)
  | (_, none) :: rest => varUsageDecls cfg vid rest
end

mutual
/-- `ErrnoUsageVisitor` on an expression: like `varUsageE` but marks errno
references (named reads and accessor calls) and skips the left-hand side of
a plain assignment to an errno expression. -/
def errnoUsageE (cfg : Cfg) (ctx : UCtx) : Expr → UseInfo
  | .declRef v _ => if v.vname == "errno" then markCtx ctx else .nil
  | .intLit _ => .nil
  | .callE _ callee args _ =>
    let base := if calleeIsErrnoAccessor callee then markCtx ctx else .nil
    base.join (errnoUsageList cfg (argContext cfg callee ctx) args)
  | .paren e => errnoUsageE cfg ctx e
  | .implicitCast e => errnoUsageE cfg ctx e
  | .explicitCast _ e => errnoUsageE cfg ctx e
  | .cleanups e => errnoUsageE cfg ctx e
  | .unaryDeref e => errnoUsageE cfg ctx e
  | .unaryOther e => errnoUsageE cfg ctx e
  | .binop op l r =>
    if op == .assign && isErrnoExpr l then errnoUsageE cfg ctx r
    else (errnoUsageE cfg ctx l).join (errnoUsageE cfg ctx r)

def errnoUsageList (cfg : Cfg) (ctx : UCtx) : List Expr → UseInfo
  | [] => .nil
  | e :: rest => (errnoUsageE cfg ctx e).join (errnoUsageList cfg ctx rest)
end

mutual
/-- `AnalyzeErrnoUsage` on a statement. -/
def errnoUsageS (cfg : Cfg) : Stmt → UseInfo
  | .exprS e => errnoUsageE cfg .kOther e
  | .declS ds => errnoUsageDecls cfg ds
  | .compound ss => errnoUsageSs cfg ss
  | .ifS c t e =>
    ((errnoUsageE cfg .kOther c).join (errnoUsageS cfg t)).join
      (match e with | some s => errnoUsageS cfg s | none => .nil)
  | .whileS c b => (errnoUsageE cfg .kOther c).join (errnoUsageS cfg b)
  | .doS b c => (errnoUsageS cfg b).join (errnoUsageE cfg .kOther c)
  | .forS ini c inc b =>
    (((match ini with | some s => errnoUsageS cfg s | none => .nil).join
      (match c with | some e => errnoUsageE cfg .kOther e | none => .nil)).join
      (match inc with | some e => errnoUsageE cfg .kOther e | none => .nil)).join
      (errnoUsageS cfg b)
  | .switchS c b => (errnoUsageE cfg .kOther c).join (errnoUsageS cfg b)
  | .caseS s => errnoUsageS cfg s
  | .defaultS s => errnoUsageS cfg s
  | .labelS s => errnoUsageS cfg s
  | .attributedS s => errnoUsageS cfg s
  | .returnS v => (match v with | some e => errnoUsageE cfg .kOther e | none => .nil)
  | .breakS => .nil
  | .nullS => .nil

def errnoUsageSs (cfg : Cfg) : List Stmt → UseInfo
  | [] => .nil
  | s :: rest => (errnoUsageS cfg s).join (errnoUsageSs cfg rest)

def errnoUsageDecls (cfg : Cfg) : List (VarInfo × Option Expr) → UseInfo
  | [] => .nil
  | (_, some i) :: rest => (errnoUsageE cfg .kOther i).join (errnoUsageDecls cfg rest)
  | (_, none) :: rest => errnoUsageDecls cfg rest
end

/-- `AsLocalVar`: the expression, after trivial unwrapping, is a reference to
a variable with local storage. -/
def asLocalVar (e : Expr) : Option VarInfo :=
  match ignoreParenImpCasts e with
  | .declRef v _ => if v.localStorage then some v else none
  | _ => none

/-- `DirectVarReference`: the expression, after trivial unwrapping, is
exactly a reference to the variable `vid`; yields the reference's location. -/
def directVarRef (e : Expr) (vid : Nat) : Option SrcLoc :=
  match ignoreParenImpCasts e with
  | .declRef v l => if v.vid == vid then some l else none
  | _ => none

/-- `IsExplicitVoidCastExpr`. -/
def isExplicitVoidCastExpr (e : Expr) : Bool :=
  match ignoreParenImpCasts e with
  | .explicitCast true _ => true
  | _ => false

/-- `IsExplicitVoidCastStatement`: the statement is an expression that is an
explicit cast to void and references the variable. -/
def isExplicitVoidCastStatement (s : Stmt) (vid : Nat) : Bool :=
  match s with
  | .exprS e => isExplicitVoidCastExpr e && containsVarRefE vid e
  | _ => false

/-- Where a watched call occurs: inside a function body, or inside the
initialiser of a file-scope variable (where no compound block encloses it). -/
inductive CallSite where
  | inFunction (body : Stmt)
  | inGlobalInit (ini : Expr)

mutual
/-- `FindStatementInCompound` restricted to a statement tree: the child of
the innermost enclosing compound block that contains call `cid`, together
with the sibling statements that follow it. -/
def findCtxIn (cid : Nat) : Stmt → Option (Stmt × List Stmt)
  | .compound ss => findCtxInBody cid ss
  | .ifS _ t e =>
    (match findCtxIn cid t with
     | some r => some r
     | none => match e with | some s => findCtxIn cid s | none => none)
  | .whileS _ b => findCtxIn cid b
  | .doS b _ => findCtxIn cid b
  | .forS ini _ _ b =>
    (match (match ini with | some s => findCtxIn cid s | none => none) with
     | some r => some r
     | none => findCtxIn cid b)
  | .switchS _ b => findCtxIn cid b
  | .caseS s => findCtxIn cid s
  | .defaultS s => findCtxIn cid s
  | .labelS s => findCtxIn cid s
  | .attributedS s => findCtxIn cid s
  | _ => none

def findCtxInBody (cid : Nat) : List Stmt → Option (Stmt × List Stmt)
  | [] => none
  | s :: rest =>
    if containsCallRefS cid s then
      match findCtxIn cid s with
      | some r => some r
      | none => some (s, rest)
    else findCtxInBody cid rest
end

/-- `FindStatementInCompound` on a call site: walking up from the call, the
statement that is a direct child of the nearest enclosing compound block (and
its following siblings); `none` when no compound block encloses the call
(e.g. a call in a file-scope initialiser, whose parent chain ends at the
translation unit). -/
def findStatementInCompound (site : CallSite) (cid : Nat) : Option (Stmt × List Stmt) :=
  match site with
  | .inFunction body => findCtxIn cid body
  | .inGlobalInit _ => none

mutual
/-- `IfHasCatchall`, expressed on the else branch: the `if`-chain ends in a
terminal `else` that is not itself another `if`. -/
def ifHasCatchall : Option Stmt → Bool
  | none => false
  | some s => ifElseCatchall s

/-- The else statement examined by `IfHasCatchall`: another `if` continues
the chain, anything else is a catch-all. -/
def ifElseCatchall : Stmt → Bool
  | .ifS _ _ e => ifHasCatchall e
  | _ => true
end

mutual
/-- `SwitchHasDefault`: the switch body contains a `default` label belonging
to this switch (labels of nested switches are not counted). -/
def switchBodyHasDefault : Stmt → Bool
  | .defaultS _ => true
  | .caseS s => switchBodyHasDefault s
  | .labelS s => switchBodyHasDefault s
  | .attributedS s => switchBodyHasDefault s
  | .compound ss => switchBodyHasDefaultSs ss
  | .ifS _ t e =>
    switchBodyHasDefault t ||
      (match e with | some s => switchBodyHasDefault s | none => false)
  | .whileS _ b => switchBodyHasDefault b
  | .doS b _ => switchBodyHasDefault b
  | .forS ini _ _ b =>
    (match ini with | some s => switchBodyHasDefault s | none => false) ||
    switchBodyHasDefault b
  | _ => false

def switchBodyHasDefaultSs : List Stmt → Bool
  | [] => false
  | s :: rest => switchBodyHasDefault s || switchBodyHasDefaultSs rest
end

/-- `BranchHandlingType`. -/
def branchHandlingType (hasCatchall : Bool) : HandlingType :=
  if hasCatchall then .kBranchedWithCatchall else .kBranchedNoCatchall

/-- `BranchHandlingForErrnoCondition`. -/
def branchHandlingForErrnoCondition : Stmt → Option HandlingType
  | .ifS c _ e =>
    if containsErrnoRefE c then some (branchHandlingType (ifHasCatchall e)) else none
  | .switchS c b =>
    if containsErrnoRefE c then some (branchHandlingType (switchBodyHasDefault b)) else none
  | _ => none

/-- `BranchHandlingForVarCondition`. -/
def branchHandlingForVarCondition (s : Stmt) (vid : Nat) : Option HandlingType :=
  match s with
  | .ifS c _ e =>
    if containsVarRefE vid c then some (branchHandlingType (ifHasCatchall e)) else none
  | .switchS c b =>
    if containsVarRefE vid c then some (branchHandlingType (switchBodyHasDefault b)) else none
  | _ => none

/-- The declaration clause of `FindErrnoAssignmentInStatement`: the first
local variable whose initialiser, after trivial unwrapping, is an errno
expression. -/
def findErrnoAssignDecls : List (VarInfo × Option Expr) → Option (VarInfo × SrcLoc)
  | [] => none
  | (v, some i) :: rest =>
    if v.localStorage && isErrnoExpr (ignoreParenImpCasts i) then
      some (v, (ignoreParenImpCasts i).loc)
    else findErrnoAssignDecls rest
  | (_, none) :: rest => findErrnoAssignDecls rest

/-- `FindErrnoAssignmentInStatement`: a declaration-with-initialiser or a
plain assignment to a local whose right-hand side is the errno expression. -/
def findErrnoAssignmentInStatement : Stmt → Option (VarInfo × SrcLoc)
  | .declS ds => findErrnoAssignDecls ds
  | .exprS (.binop .assign l r) =>
    (match asLocalVar l with
     | some v =>
       if isErrnoExpr (ignoreParenImpCasts r) then some (v, (ignoreParenImpCasts r).loc)
       else none
     | none => none)
  | _ => none

/-- `AnalyzeErrnoStatement`: the per-statement errno rules in source order;
the second component is the contribution to the caller's `logged` flag (only
set on the paths that return `kNone`, as in the source). -/
def analyzeErrnoStatement (cfg : Cfg) (s : Stmt) : HandlingType × Bool :=
  let usage := errnoUsageS cfg s
  if usage.handler then (.kPassedToHandlerFn, false)
  else if containsReturnOfErrno s then (.kPropagated, false)
  else
    match branchHandlingForErrnoCondition s with
    | some b => (b, false)
    | none =>
      if (findErrnoAssignmentInStatement s).isSome then (.kNone, usage.logger)
      else if usage.other then (.kUsedOther, false)
      else (.kNone, usage.logger)

/-- `StatementUse` from the source (`kPropagatedValue` carries the retarget
variable and the new candidate assignment location). -/
inductive StatementUse where
  | kNone
  | kPropagatedValue (v : VarInfo) (loc : SrcLoc)
  | kKilled
  | kLogged
  | kBranchedNoCatchall
  | kBranchedWithCatchall
  | kPassedToHandlerFn
  | kReturned
  | kCastToVoid
  | kUsedOther
  deriving DecidableEq, Repr

/-- Outcome of the declaration loop inside `AnalyzeStatementForVar`: an early
return, or loop exhaustion with the candidate state. -/
inductive DeclLoopOut where
  | ret (u : StatementUse)
  | cand (c : Option (VarInfo × SrcLoc))
  deriving DecidableEq, Repr

/-- The declaration loop of `AnalyzeStatementForVar`: direct copies of the
tracked variable into another local become the retarget candidate; any other
initialiser use returns immediately with the usage-derived outcome. -/
def declLoopForVar (cfg : Cfg) (vid : Nat) :
    List (VarInfo × Option Expr) → Option (VarInfo × SrcLoc) → DeclLoopOut
  | [], c => .cand c
  | (_, none) :: rest, c => declLoopForVar cfg vid rest c
  | (v, some i) :: rest, c =>
    if !containsVarRefE vid i then declLoopForVar cfg vid rest c
    else
      match directVarRef i vid, v.localStorage with
      | some l, true =>
        (match c with
         | some (cv, _) =>
           if cv.vid == v.vid then declLoopForVar cfg vid rest (some (v, l))
           else .ret .kUsedOther
         | none => declLoopForVar cfg vid rest (some (v, l)))
      | _, _ =>
        let iu := varUsageE cfg vid .kOther i
        if iu.handler then .ret .kPassedToHandlerFn
        else if iu.other then .ret .kUsedOther
        else if iu.logger then .ret .kLogged
        else .ret .kUsedOther

/-- The fall-through tail of `AnalyzeStatementForVar`: the explicit
void-cast check (honoured only when the flag permits), then the
usage-derived outcomes. -/
def statementUseTail (usage : UseInfo) (s : Stmt) (vid : Nat)
    (allowCastToVoid : Bool) : StatementUse :=
  if isExplicitVoidCastStatement s vid then
    (if allowCastToVoid then .kCastToVoid else .kUsedOther)
  else if usage.other then .kUsedOther
  else if usage.logger then .kLogged
  else .kNone

/-- The right-hand-side usage clause shared by the assignment case of
`AnalyzeStatementForVar`. -/
def rhsUseOf (cfg : Cfg) (vid : Nat) (r : Expr) : StatementUse :=
  let ru := varUsageE cfg vid .kOther r
  if ru.handler then .kPassedToHandlerFn
  else if ru.other then .kUsedOther
  else if ru.logger then .kLogged
  else .kUsedOther

/-- `AnalyzeStatementForVar`: classify one sibling statement's use of the
tracked variable. -/
def analyzeStatementForVar (cfg : Cfg) (s : Stmt) (v : VarInfo)
    (allowCastToVoid : Bool) : StatementUse :=
  let usage := varUsageS cfg v.vid s
  if usage.handler then .kPassedToHandlerFn
  else if containsReturnOfVar v.vid s then .kReturned
  else
    match branchHandlingForVarCondition s v.vid with
    | some b =>
      if b == .kBranchedWithCatchall then .kBranchedWithCatchall
      else .kBranchedNoCatchall
    | none =>
      match s with
      | .declS ds =>
        (match declLoopForVar cfg v.vid ds none with
         | .ret u => u
         | .cand (some (cv, cl)) => .kPropagatedValue cv cl
         | .cand none => statementUseTail usage s v.vid allowCastToVoid)
      | .exprS (.binop .assign l r) =>
        let lhs := asLocalVar l
        let rhsContains := containsVarRefE v.vid r
        if (match lhs with | some lv => lv.vid == v.vid | none => false)
            && !rhsContains then .kKilled
        else if rhsContains then
          (match directVarRef r v.vid, lhs with
           | some dl, some lv =>
             if lv.vid != v.vid then .kPropagatedValue lv dl else rhsUseOf cfg v.vid r
           | _, _ => rhsUseOf cfg v.vid r)
        else statementUseTail usage s v.vid allowCastToVoid
      | _ => statementUseTail usage s v.vid allowCastToVoid

/-- `TrackingResult` from the source. -/
structure TrackingResult where
  type : HandlingType
  assignedLoc : Option SrcLoc
  deriving DecidableEq, Repr

/-- The loop of `TrackAssignedValue`: walk the sibling statements that follow
the assignment statement inside its compound block, retargeting through
direct copies, accumulating the logger flag, and stopping at the first
terminating use; reaching the end of the block yields `logged_not_handled`
if a logger use was seen, otherwise `assigned_not_read` at the last recorded
assignment location. -/
def trackWalk (cfg : Cfg) (allowCastToVoid : Bool) :
    List Stmt → VarInfo → SrcLoc → Bool → TrackingResult
  | [], _, loc, logged =>
    if logged then ⟨.kLoggedNotHandled, none⟩ else ⟨.kAssignedNotRead, some loc⟩
  | s :: rest, v, loc, logged =>
    match analyzeStatementForVar cfg s v allowCastToVoid with
    | .kNone => trackWalk cfg allowCastToVoid rest v loc logged
    | .kLogged => trackWalk cfg allowCastToVoid rest v loc true
    | .kPropagatedValue v' loc' => trackWalk cfg allowCastToVoid rest v' loc' logged
    | .kBranchedNoCatchall => ⟨.kBranchedNoCatchall, none⟩
    | .kBranchedWithCatchall => ⟨.kBranchedWithCatchall, none⟩
    | .kPassedToHandlerFn => ⟨.kPassedToHandlerFn, none⟩
    | .kReturned => ⟨.kPropagated, none⟩
    | .kCastToVoid => ⟨.kCastToVoid, none⟩
    | .kUsedOther => ⟨.kUsedOther, none⟩
    | .kKilled =>
      if logged then ⟨.kLoggedNotHandled, none⟩ else ⟨.kAssignedNotRead, some loc⟩

mutual
/-- `TopLevelExpr` restricted to a statement tree: the maximal expression
containing call `cid`, i.e. the expression embedded directly in a statement
or declaration slot (the parent walk of the source moves through every
expression parent and stops at the first non-expression parent). -/
def findTopExprS (cid : Nat) : Stmt → Option Expr
  | .exprS e => if containsCallRefE cid e then some e else none
  | .declS ds => findTopExprDecls cid ds
  | .compound ss => findTopExprSs cid ss
  | .ifS c t e =>
    if containsCallRefE cid c then some c
    else
      (match findTopExprS cid t with
       | some r => some r
       | none => match e with | some s => findTopExprS cid s | none => none)
  | .whileS c b =>
    if containsCallRefE cid c then some c else findTopExprS cid b
  | .doS b c =>
    (match findTopExprS cid b with
     | some r => some r
     | none => if containsCallRefE cid c then some c else none)
  | .forS ini c inc b =>
    (match (match ini with | some s => findTopExprS cid s | none => none) with
     | some r => some r
     | none =>
       if (match c with | some e => containsCallRefE cid e | none => false) then c
       else if (match inc with | some e => containsCallRefE cid e | none => false) then inc
       else findTopExprS cid b)
  | .switchS c b =>
    if containsCallRefE cid c then some c else findTopExprS cid b
  | .caseS s => findTopExprS cid s
  | .defaultS s => findTopExprS cid s
  | .labelS s => findTopExprS cid s
  | .attributedS s => findTopExprS cid s
  | .returnS v =>
    (match v with
     | some e => if containsCallRefE cid e then some e else none
     | none => none)
  | .breakS => none
  | .nullS => none

def findTopExprSs (cid : Nat) : List Stmt → Option Expr
  | [] => none
  | s :: rest =>
    (match findTopExprS cid s with
     | some r => some r
     | none => findTopExprSs cid rest)

def findTopExprDecls (cid : Nat) : List (VarInfo × Option Expr) → Option Expr
  | [] => none
  | (_, some i) :: rest =>
    if containsCallRefE cid i then some i else findTopExprDecls cid rest
  | (_, none) :: rest => findTopExprDecls cid rest
end

/-- `TopLevelExpr` on a call site.  For a file-scope initialiser the parent
of the initialiser expression is the variable declaration, so the
initialiser itself is the top expression. -/
def topLevelExpr (site : CallSite) (cid : Nat) : Option Expr :=
  match site with
  | .inFunction body => findTopExprS cid body
  | .inGlobalInit ini => if containsCallRefE cid ini then some ini else none

/-- `IsTopLevelExplicitVoidCast`. -/
def isTopLevelExplicitVoidCast (site : CallSite) (cid : Nat) : Bool :=
  match topLevelExpr site cid with
  | some t => isExplicitVoidCastExpr t
  | none => false

mutual
/-- `FindEnclosingCallWithArgument` within an expression: the nearest proper
ancestor call expression that has call `cid` inside one of its arguments;
yields that ancestor's direct-callee name. -/
def enclosingCallE (cid : Nat) : Expr → Option (Option String)
  | .declRef _ _ => none
  | .intLit _ => none
  | .callE c callee args _ =>
    if c == cid then none else enclosingCallArgs cid callee args
  | .paren e => enclosingCallE cid e
  | .implicitCast e => enclosingCallE cid e
  | .explicitCast _ e => enclosingCallE cid e
  | .cleanups e => enclosingCallE cid e
  | .unaryDeref e => enclosingCallE cid e
  | .unaryOther e => enclosingCallE cid e
  | .binop _ l r =>
    if containsCallRefE cid l then enclosingCallE cid l else enclosingCallE cid r

def enclosingCallArgs (cid : Nat) (callee : Option String) :
    List Expr → Option (Option String)
  | [] => none
  | a :: rest =>
    if containsCallRefE cid a then
      (match enclosingCallE cid a with
       | some r => some r
       | none => some callee)
    else enclosingCallArgs cid callee rest
end

mutual
/-- `FindEnclosingCallWithArgument` over a statement tree (the upward walk of
the source crosses statement parents without ever finding further call
ancestors, so the search stays inside the expression containing the call). -/
def enclosingCallS (cid : Nat) : Stmt → Option (Option String)
  | .exprS e => enclosingCallE cid e
  | .declS ds => enclosingCallDecls cid ds
  | .compound ss => enclosingCallSs cid ss
  | .ifS c t e =>
    if containsCallRefE cid c then enclosingCallE cid c
    else
      (match enclosingCallS cid t with
       | some r => some r
       | none => match e with | some s => enclosingCallS cid s | none => none)
  | .whileS c b =>
    if containsCallRefE cid c then enclosingCallE cid c else enclosingCallS cid b
  | .doS b c =>
    (match enclosingCallS cid b with
     | some r => some r
     | none => if containsCallRefE cid c then enclosingCallE cid c else none)
  | .forS ini c inc b =>
    (match (match ini with | some s => enclosingCallS cid s | none => none) with
     | some r => some r
     | none =>
       if (match c with | some e => containsCallRefE cid e | none => false) then
         (match c with | some e => enclosingCallE cid e | none => none)
       else if (match inc with | some e => containsCallRefE cid e | none => false) then
         (match inc with | some e => enclosingCallE cid e | none => none)
       else enclosingCallS cid b)
  | .switchS c b =>
    if containsCallRefE cid c then enclosingCallE cid c else enclosingCallS cid b
  | .caseS s => enclosingCallS cid s
  | .defaultS s => enclosingCallS cid s
  | .labelS s => enclosingCallS cid s
  | .attributedS s => enclosingCallS cid s
  | .returnS v =>
    (match v with | some e => enclosingCallE cid e | none => none)
  | .breakS => none
  | .nullS => none

def enclosingCallSs (cid : Nat) : List Stmt → Option (Option String)
  | [] => none
  | s :: rest =>
    (match enclosingCallS cid s with
     | some r => some r
     | none => enclosingCallSs cid rest)

def enclosingCallDecls (cid : Nat) : List (VarInfo × Option Expr) → Option (Option String)
  | [] => none
  | (_, some i) :: rest =>
    (match enclosingCallE cid i with
     | some r => some r
     | none => enclosingCallDecls cid rest)
  | (_, none) :: rest => enclosingCallDecls cid rest
end

/-- `DirectHandlerLoggerUse`: the nearest enclosing call taking the watched
call as an argument decides between handler and logger (handler first). -/
def directHandlerLoggerUse (cfg : Cfg) (site : CallSite) (cid : Nat) : HandlingType :=
  let enc :=
    match site with
    | .inFunction body => enclosingCallS cid body
    | .inGlobalInit ini => enclosingCallE cid ini
  match enc with
  | some callee =>
    if nameInSet cfg.handlers callee then .kPassedToHandlerFn
    else if nameInSet cfg.loggers callee then .kLoggedNotHandled
    else .kNone
  | none => .kNone

/-- The upward walk of `IsIgnoredCallStatement` through expression parents
accepts only wrapper nodes: the expression is call `cid` under parentheses,
casts, or the cleanup/temporary wrappers alone. -/
def wrapperChainFromCall (cid : Nat) : Expr → Bool
  | .callE c _ _ _ => c == cid
  | .paren e => wrapperChainFromCall cid e
  | .implicitCast e => wrapperChainFromCall cid e
  | .explicitCast _ e => wrapperChainFromCall cid e
  | .cleanups e => wrapperChainFromCall cid e
  | _ => false

/-- Whether a child statement slot holds call `cid` behind wrappers only
(an expression statement whose expression is the wrapped call). -/
def stmtPosHit (cid : Nat) : Stmt → Bool
  | .exprS e => wrapperChainFromCall cid e
  | _ => false

mutual
/-- `IsIgnoredCallStatement` over a statement tree: the wrapped call sits in
a statement-position slot (compound child; `if` then/else; loop, `for`
init/increment, or `switch` body; `case`/`default`/label/attributed
substatement).  Conditions, return values, and initialisers are not
statement positions. -/
def isIgnoredCallIn (cid : Nat) : Stmt → Bool
  | .compound ss => isIgnoredCallInSs cid ss
  | .ifS _ t e =>
    stmtPosHit cid t || isIgnoredCallIn cid t ||
      (match e with
       | some s => stmtPosHit cid s || isIgnoredCallIn cid s
       | none => false)
  | .whileS _ b => stmtPosHit cid b || isIgnoredCallIn cid b
  | .doS b _ => stmtPosHit cid b || isIgnoredCallIn cid b
  | .forS ini _ inc b =>
    (match ini with
     | some s => stmtPosHit cid s || isIgnoredCallIn cid s
     | none => false) ||
    (match inc with | some e => wrapperChainFromCall cid e | none => false) ||
    stmtPosHit cid b || isIgnoredCallIn cid b
  | .switchS _ b => stmtPosHit cid b || isIgnoredCallIn cid b
  | .caseS s => stmtPosHit cid s || isIgnoredCallIn cid s
  | .defaultS s => stmtPosHit cid s || isIgnoredCallIn cid s
  | .labelS s => stmtPosHit cid s || isIgnoredCallIn cid s
  | .attributedS s => stmtPosHit cid s || isIgnoredCallIn cid s
  | _ => false

def isIgnoredCallInSs (cid : Nat) : List Stmt → Bool
  | [] => false
  | s :: rest => stmtPosHit cid s || isIgnoredCallIn cid s || isIgnoredCallInSs cid rest
end

/-- `IsIgnoredCallStatement` on a call site (a file-scope initialiser has a
declaration parent, which ends the walk with a negative answer). -/
def isIgnoredCallStatement (site : CallSite) (cid : Nat) : Bool :=
  match site with
  | .inFunction body => isIgnoredCallIn cid body
  | .inGlobalInit _ => false

mutual
/-- `IsReturnedCall`: the first non-expression parent above the call is a
return statement whose value contains the call. -/
def isReturnedCallIn (cid : Nat) : Stmt → Bool
  | .returnS v => (match v with | some e => containsCallRefE cid e | none => false)
  | .compound ss => isReturnedCallInSs cid ss
  | .ifS _ t e =>
    isReturnedCallIn cid t ||
      (match e with | some s => isReturnedCallIn cid s | none => false)
  | .whileS _ b => isReturnedCallIn cid b
  | .doS b _ => isReturnedCallIn cid b
  | .forS ini _ _ b =>
    (match ini with | some s => isReturnedCallIn cid s | none => false) ||
    isReturnedCallIn cid b
  | .switchS _ b => isReturnedCallIn cid b
  | .caseS s => isReturnedCallIn cid s
  | .defaultS s => isReturnedCallIn cid s
  | .labelS s => isReturnedCallIn cid s
  | .attributedS s => isReturnedCallIn cid s
  | _ => false

def isReturnedCallInSs (cid : Nat) : List Stmt → Bool
  | [] => false
  | s :: rest => isReturnedCallIn cid s || isReturnedCallInSs cid rest
end

/-- `IsReturnedCall` on a call site. -/
def isReturnedCall (site : CallSite) (cid : Nat) : Bool :=
  match site with
  | .inFunction body => isReturnedCallIn cid body
  | .inGlobalInit _ => false

/-- `BranchHandlingForCall`: the statement in the compound block is an `if`
or `switch` whose condition contains the call. -/
def branchHandlingForCall (site : CallSite) (cid : Nat) : Option HandlingType :=
  match findStatementInCompound site cid with
  | some (.ifS c _ e, _) =>
    if containsCallRefE cid c then some (branchHandlingType (ifHasCatchall e)) else none
  | some (.switchS c b, _) =>
    if containsCallRefE cid c then some (branchHandlingType (switchBodyHasDefault b)) else none
  | _ => none

/-- The first declaration in a `DeclStmt` whose initialiser contains the
call. -/
def findDeclInitContaining (cid : Nat) : List (VarInfo × Option Expr) → Option VarInfo
  | [] => none
  | (v, some i) :: rest =>
    if containsCallRefE cid i then some v else findDeclInitContaining cid rest
  | (_, none) :: rest => findDeclInitContaining cid rest

/-- `FindReturnValueAssignment`.  Only the variable-initialiser case of the
source is reachable: its plain-assignment branch tests the first parent that
is a statement but not an expression against `BinaryOperator`, and an
assignment operator is itself an expression, so that branch never fires.
Yields the assigned variable and the siblings following the declaration
statement (the statement in the compound block, which must be a `DeclStmt`). -/
def findReturnValueAssignment (site : CallSite) (cid : Nat) :
    Option (VarInfo × List Stmt) :=
  match findStatementInCompound site cid with
  | some (.declS ds, rest) =>
    (match findDeclInitContaining cid ds with
     | some v => if v.localStorage then some (v, rest) else none
     | none => none)
  | _ => none

/-- `HandlingResult` from the source. -/
structure HandlingResult where
  type : HandlingType
  assigned : Option SrcLoc
  deriving DecidableEq, Repr

/-- `MakeResult`. -/
def makeResult (t : HandlingType) : HandlingResult := ⟨t, none⟩

/-- `ToHandlingResult`: the assignment site is kept only for
`assigned_not_read` (locations in the model are always presumed-valid). -/
def toHandlingResult (t : TrackingResult) : HandlingResult :=
  ⟨t.type, if t.type == .kAssignedNotRead then t.assignedLoc else none⟩

/-- `TrackReturnValue`: hand the assigned variable to the tracker with the
call's location as the initial assignment site and cast-to-void allowed. -/
def trackReturnValue (cfg : Cfg) (site : CallSite) (cid : Nat)
    (callLoc : SrcLoc) : TrackingResult :=
  match findReturnValueAssignment site cid with
  | some (v, rest) => trackWalk cfg true rest v callLoc false
  | none => ⟨.kNone, none⟩

/-- `AnalyzeReturnValue`: the return-value rules in source precedence order. -/
def analyzeReturnValue (cfg : Cfg) (site : CallSite) (cid : Nat)
    (callLoc : SrcLoc) : HandlingResult :=
  if isTopLevelExplicitVoidCast site cid then makeResult .kCastToVoid
  else
    let direct := directHandlerLoggerUse cfg site cid
    if direct != .kNone then makeResult direct
    else if isIgnoredCallStatement site cid then makeResult .kIgnored
    else if isReturnedCall site cid then makeResult .kPropagated
    else
      match branchHandlingForCall site cid with
      | some b => makeResult b
      | none =>
        let tracked := toHandlingResult (trackReturnValue cfg site cid callLoc)
        if tracked.type != .kNone then tracked
        else makeResult .kUsedOther

/-- `IsErrnoIgnored` on the looked-up compound context: neither the call
statement nor its immediate successor contains an errno reference (a call
with no enclosing compound-block statement is ignored as well). -/
def errnoIgnoredCtx : Option (Stmt × List Stmt) → Bool
  | none => true
  | some (s, rest) =>
    if containsErrnoRefS s then false
    else
      match rest.head? with
      | some nxt => !containsErrnoRefS nxt
      | none => true

/-- `IsErrnoIgnored`. -/
def isErrnoIgnored (site : CallSite) (cid : Nat) : Bool :=
  errnoIgnoredCtx (findStatementInCompound site cid)

/-- `TrackErrnoAssignment` after the statement lookup: find the errno-to-
local assignment in the call statement or its immediate successor and walk
the siblings that follow the assignment (cast-to-void not allowed). -/
def trackErrnoFrom (cfg : Cfg) (s : Stmt) (rest : List Stmt) : TrackingResult :=
  match findErrnoAssignmentInStatement s with
  | some (v, loc) => trackWalk cfg false rest v loc false
  | none =>
    match rest with
    | nxt :: rest2 =>
      (match findErrnoAssignmentInStatement nxt with
       | some (v, loc) => trackWalk cfg false rest2 v loc false
       | none => ⟨.kNone, none⟩)
    | [] => ⟨.kNone, none⟩

/-- `TrackErrnoAssignment`. -/
def trackErrnoAssignment (cfg : Cfg) (site : CallSite) (cid : Nat) : TrackingResult :=
  match findStatementInCompound site cid with
  | some (s, rest) => trackErrnoFrom cfg s rest
  | none => ⟨.kNone, none⟩

/-- The non-ignored part of `AnalyzeErrno`: analyze the call statement, then
its immediate successor, then the errno-to-local tracking, then the logger
fallback, then `used_other`. -/
def analyzeErrnoMain (cfg : Cfg) (s : Stmt) (rest : List Stmt) : HandlingResult :=
  let d1 := analyzeErrnoStatement cfg s
  if d1.1 != .kNone then makeResult d1.1
  else
    let d2 :=
      match rest.head? with
      | some nxt => analyzeErrnoStatement cfg nxt
      | none => (.kNone, false)
    if d2.1 != .kNone then makeResult d2.1
    else
      let tracked := toHandlingResult (trackErrnoFrom cfg s rest)
      if tracked.type != .kNone then tracked
      else if d1.2 || d2.2 then makeResult .kLoggedNotHandled
      else makeResult .kUsedOther

/-- `AnalyzeErrno` on the looked-up compound context.  The `none` branch
mirrors the source's fall-through for a null statement; it is unreachable
because `errnoIgnoredCtx none` is `true`. -/
def analyzeErrnoCtx (cfg : Cfg) (ctx : Option (Stmt × List Stmt)) : HandlingResult :=
  if errnoIgnoredCtx ctx then makeResult .kIgnored
  else
    match ctx with
    | some (s, rest) => analyzeErrnoMain cfg s rest
    | none => makeResult .kUsedOther

/-- `AnalyzeErrno`. -/
def analyzeErrno (cfg : Cfg) (site : CallSite) (cid : Nat) : HandlingResult :=
  analyzeErrnoCtx cfg (findStatementInCompound site cid)

mutual
/-- Modelled from the spec: the "topmost wrapper" above call `cid` obtained
by walking the parent chain through only wrapper expression nodes
(parentheses, casts, cleanup markers, temporary-materialisation wrappers);
equivalently, the outermost subexpression that is a pure wrapper chain
around the call.  Used to compare the spec's cast-to-void rule against the
source's `TopLevelExpr`, which walks through every expression parent. -/
def specWrapperTopE (cid : Nat) (e : Expr) : Option Expr :=
  if wrapperChainFromCall cid e then some e
  else
    match e with
    | .callE _ _ args _ => specWrapperTopList cid args
    | .paren s => specWrapperTopE cid s
    | .implicitCast s => specWrapperTopE cid s
    | .explicitCast _ s => specWrapperTopE cid s
    | .cleanups s => specWrapperTopE cid s
    | .unaryDeref s => specWrapperTopE cid s
    | .unaryOther s => specWrapperTopE cid s
    | .binop _ l r =>
      (match specWrapperTopE cid l with
       | some x => some x
       | none => specWrapperTopE cid r)
    | _ => none

def specWrapperTopList (cid : Nat) : List Expr → Option Expr
  | [] => none
  | a :: rest =>
    (match specWrapperTopE cid a with
     | some x => some x
     | none => specWrapperTopList cid rest)
end

/-- Modelled from the spec: "walk the chain of parent expressions above the
call through only wrapper expression nodes; if the topmost wrapper is an
explicit cast to the void type", the claimed condition for *cast_to_void*. -/
def specTopmostWrapperIsVoidCast (site : CallSite) (cid : Nat) : Bool :=
  match topLevelExpr site cid with
  | some t =>
    (match specWrapperTopE cid t with
     | some (.explicitCast true _) => true
     | _ => false)
  | none => false

/-- Registry lookup for a watched function name. -/
def lookupNotable (cfg : Cfg) (n : String) : Option ErrorReportingType :=
  match cfg.notable.find? (fun p => p.1 == n) with
  | some p => some p.2
  | none => none

mutual
/-- The AST walker's visit of an expression tree: every call expression
whose direct callee name is registered as watched, in traversal order
(parents before arguments, as in `TraverseStmt`). -/
def collectWatchedE (cfg : Cfg) : Expr → List (Nat × String × ErrorReportingType × SrcLoc)
  | .callE c callee args l =>
    (match callee with
     | some n =>
       (match lookupNotable cfg n with
        | some k => [(c, n, k, l)]
        | none => [])
     | none => []) ++ collectWatchedArgs cfg args
  | .declRef _ _ => []
  | .intLit _ => []
  | .paren e => collectWatchedE cfg e
  | .implicitCast e => collectWatchedE cfg e
  | .explicitCast _ e => collectWatchedE cfg e
  | .cleanups e => collectWatchedE cfg e
  | .unaryDeref e => collectWatchedE cfg e
  | .unaryOther e => collectWatchedE cfg e
  | .binop _ l r => collectWatchedE cfg l ++ collectWatchedE cfg r

def collectWatchedArgs (cfg : Cfg) : List Expr → List (Nat × String × ErrorReportingType × SrcLoc)
  | [] => []
  | e :: rest => collectWatchedE cfg e ++ collectWatchedArgs cfg rest
end

mutual
/-- The AST walker's visit of a statement tree. -/
def collectWatchedS (cfg : Cfg) : Stmt → List (Nat × String × ErrorReportingType × SrcLoc)
  | .exprS e => collectWatchedE cfg e
  | .declS ds => collectWatchedDecls cfg ds
  | .compound ss => collectWatchedSs cfg ss
  | .ifS c t e =>
    collectWatchedE cfg c ++ collectWatchedS cfg t ++
      (match e with | some s => collectWatchedS cfg s | none => [])
  | .whileS c b => collectWatchedE cfg c ++ collectWatchedS cfg b
  | .doS b c => collectWatchedS cfg b ++ collectWatchedE cfg c
  | .forS ini c inc b =>
    (match ini with | some s => collectWatchedS cfg s | none => []) ++
    (match c with | some e => collectWatchedE cfg e | none => []) ++
    (match inc with | some e => collectWatchedE cfg e | none => []) ++
    collectWatchedS cfg b
  | .switchS c b => collectWatchedE cfg c ++ collectWatchedS cfg b
  | .caseS s => collectWatchedS cfg s
  | .defaultS s => collectWatchedS cfg s
  | .labelS s => collectWatchedS cfg s
  | .attributedS s => collectWatchedS cfg s
  | .returnS v => (match v with | some e => collectWatchedE cfg e | none => [])
  | .breakS => []
  | .nullS => []

def collectWatchedSs (cfg : Cfg) : List Stmt → List (Nat × String × ErrorReportingType × SrcLoc)
  | [] => []
  | s :: rest => collectWatchedS cfg s ++ collectWatchedSs cfg rest

def collectWatchedDecls (cfg : Cfg) : List (VarInfo × Option Expr) → List (Nat × String × ErrorReportingType × SrcLoc)
  | [] => []
  | (_, some i) :: rest => collectWatchedE cfg i ++ collectWatchedDecls cfg rest
  | (_, none) :: rest => collectWatchedDecls cfg rest
end

/-- Top-level declarations of a translation unit that the walker traverses:
function definitions (bodies) and file-scope variables (initialisers). -/
inductive TopDecl where
  | fnDecl (body : Stmt)
  | globalVar (v : VarInfo) (ini : Option Expr)

/-- Every watched call the walker visits in a translation unit, paired with
the call site context used to classify it. -/
def watchedCallsOfTU (cfg : Cfg) :
    List TopDecl → List (CallSite × Nat × String × ErrorReportingType × SrcLoc)
  | [] => []
  | .fnDecl body :: rest =>
    (collectWatchedS cfg body).map (fun x => (CallSite.inFunction body, x)) ++
      watchedCallsOfTU cfg rest
  | .globalVar _ (some ini) :: rest =>
    (collectWatchedE cfg ini).map (fun x => (CallSite.inGlobalInit ini, x)) ++
      watchedCallsOfTU cfg rest
  | .globalVar _ none :: rest => watchedCallsOfTU cfg rest

/-- A row of the `watched_calls` table as bound by `InsertCall`. -/
structure Row where
  name : String
  filename : String
  line : Nat
  column : Nat
  handlingType : String
  assigned : Option SrcLoc
  deriving DecidableEq, Repr

/-- The dispatch in `TraverseStmt`: classify by the registered reporting
kind. -/
def classifyWatchedCall (cfg : Cfg) (site : CallSite) (cid : Nat)
    (kind : ErrorReportingType) (loc : SrcLoc) : HandlingResult :=
  match kind with
  | .kReturnValue => analyzeReturnValue cfg site cid loc
  | .kErrno => analyzeErrno cfg site cid

/-- The emission step of `TraverseStmt`: patch a `kNone` result to
`kUsedOther` and build the row handed to `InsertCall`. -/
def emitRow (cfg : Cfg) :
    CallSite × Nat × String × ErrorReportingType × SrcLoc → Row
  | (site, cid, n, k, loc) =>
    let handling := classifyWatchedCall cfg site cid k loc
    let t := if handling.type == .kNone then HandlingType.kUsedOther else handling.type
    ⟨n, loc.file, loc.line, loc.col, handlingTypeName t, handling.assigned⟩

/-- One run of the walker over a translation unit: the rows handed to the
emitter, one per watched call visited. -/
def runWalkerTU (cfg : Cfg) (tu : List TopDecl) : List Row :=
  (watchedCallsOfTU cfg tu).map (emitRow cfg)

/-- The nine category strings of the data model. -/
def nineCategoryNames : List String :=
  ["ignored", "cast_to_void", "assigned_not_read", "branched_no_catchall",
   "branched_with_catchall", "propagated", "passed_to_handler_fn",
   "used_other", "logged_not_handled"]

/-- `SqliteWriter` state: the persisted rows and the sticky error message
(empty when no sink failure has occurred). -/
structure SqliteWriterState where
  rows : List Row
  errorMessage : String
  deriving DecidableEq, Repr

/-- `SqliteWriter::SetError`: only the first error message is kept. -/
def setError (w : SqliteWriterState) (m : String) : SqliteWriterState :=
  if w.errorMessage != "" then w else { w with errorMessage := m }

/-- `SqliteWriter::InsertCall`: a no-op once the sticky error is latched;
otherwise the row is appended unless the underlying bind/step fails
(`sqliteFailure` injects the library failure message), in which case the
error latches and nothing is written. -/
def insertCall (w : SqliteWriterState) (r : Row) (sqliteFailure : Option String) :
    SqliteWriterState × Bool :=
  if w.errorMessage != "" then (w, false)
  else
    match sqliteFailure with
    | some m => (setError w m, false)
    | none => ({ w with rows := w.rows ++ [r] }, true)

/-- The tail of `main`: a latched writer error forces `EXIT_FAILURE` (1). -/
def mainExitCode (w : SqliteWriterState) (toolResult : Nat) : Nat :=
  if w.errorMessage != "" then 1 else toolResult

/-- Column list and table-level uniqueness constraints of the `CREATE TABLE
watched_calls` statement in `SqliteWriter::Open`, transcribed column for
column; the statement declares no UNIQUE constraint. -/
structure TableSchema where
  columns : List (String × String)
  uniqueConstraints : List (List String)
  deriving DecidableEq, Repr

/-- The `watched_calls` schema from the source. -/
def watchedCallsSchema : TableSchema :=
  { columns :=
      [("id", "INTEGER PRIMARY KEY"),
       ("name", "TEXT NOT NULL"),
       ("filename", "TEXT NOT NULL"),
       ("line", "INTEGER NOT NULL"),
       ("column", "INTEGER NOT NULL"),
       ("handling_type", "TEXT NOT NULL"),
       ("assigned_filename", "TEXT"),
       ("assigned_line", "INTEGER"),
       ("assigned_column", "INTEGER")],
    uniqueConstraints := [] }

/-- The deduplication key named by the spec. -/
def Row.key (r : Row) : String × String × Nat × Nat × String :=
  (r.name, r.filename, r.line, r.column, r.handlingType)

/-- The two statements the errno classifier's rule selection looks at: the
call statement and its immediate successor (empty when no compound-block
statement encloses the call). -/
def errnoNeighborhood (site : CallSite) (cid : Nat) : List Stmt :=
  match findStatementInCompound site cid with
  | none => []
  | some (s, rest) => s :: rest.take 1

/-- The `errno` variable after macro expansion on the modelled platform. -/
def errnoVar : VarInfo := ⟨1000, "errno", false⟩

/-- Local `unsigned long x`. -/
def xVar : VarInfo := ⟨1, "x", true⟩

/-- Local `int err`. -/
def errVar : VarInfo := ⟨2, "err", true⟩

/-- Local `int f`. -/
def fVar : VarInfo := ⟨3, "f", true⟩

/-- Registry used by the concrete examples: `strtoull` watched with errno
reporting, `malloc` watched with return-value reporting, `handle` a handler,
`log_errno` and `log_error` loggers. -/
def cfgScen : Cfg :=
  ⟨[("strtoull", .kErrno), ("malloc", .kReturnValue)],
   ["handle"], ["log_errno", "log_error"]⟩

/-- Spec scenario 6, statement 1: `unsigned long x = strtoull("",0,10);`
(the watched call has identity 1). -/
def scen6s1 : Stmt :=
  .declS [(xVar, some (.implicitCast
    (.callE 1 (some "strtoull") [.intLit 0, .intLit 0, .intLit 10] ⟨"t6.c", 1, 20⟩)))]

/-- Spec scenario 6, statement 2: `int err = errno;`. -/
def scen6s2 : Stmt :=
  .declS [(errVar, some (.implicitCast (.declRef errnoVar ⟨"t6.c", 2, 11⟩)))]

/-- Spec scenario 6, statement 3: `int f = 0;`. -/
def scen6s3 : Stmt := .declS [(fVar, some (.intLit 0))]

/-- Spec scenario 6, statement 4: `if (f) f = 1; else f = 2;`. -/
def scen6s4 : Stmt :=
  .ifS (.implicitCast (.declRef fVar ⟨"t6.c", 4, 7⟩))
    (.exprS (.binop .assign (.declRef fVar ⟨"t6.c", 4, 10⟩) (.intLit 1)))
    (some (.exprS (.binop .assign (.declRef fVar ⟨"t6.c", 4, 20⟩) (.intLit 2))))

/-- Spec scenario 6, statement 5: `(void)err;`. -/
def scen6s5 : Stmt :=
  .exprS (.explicitCast true (.implicitCast (.declRef errVar ⟨"t6.c", 5, 8⟩)))

/-- Spec scenario 6, statement 6: `return (int)x;`. -/
def scen6s6 : Stmt :=
  .returnS (some (.explicitCast false (.implicitCast (.declRef xVar ⟨"t6.c", 6, 15⟩))))

/-- Spec scenario 6 body. -/
def scen6body : Stmt :=
  .compound [scen6s1, scen6s2, scen6s3, scen6s4, scen6s5, scen6s6]

/-- Spec scenario 6 call site. -/
def scen6site : CallSite := .inFunction scen6body

/-- C4 counterexample program: `(void)(malloc(1) + 0);` — the watched call's
parent chain passes through a non-wrapper binary operator before reaching
the explicit void cast. -/
def exC4expr : Expr :=
  .explicitCast true
    (.paren (.binop .other
      (.callE 1 (some "malloc") [.intLit 1] ⟨"t4.c", 1, 10⟩) (.intLit 0)))

/-- C4 counterexample call site. -/
def exC4site : CallSite := .inFunction (.compound [.exprS exC4expr])

/-- Witness program for the amended C4 claim: `(void)malloc(1);`. -/
def exC4wSite : CallSite :=
  .inFunction (.compound
    [.exprS (.explicitCast true (.callE 2 (some "malloc") [.intLit 1] ⟨"t4.c", 2, 9⟩))])

/-- C6 counterexample, statement 1: `if (strtoull("",0,10) && errno) { }` —
the call statement matches the branched rule. -/
def exC6s1 : Stmt :=
  .ifS (.binop .other
    (.implicitCast (.callE 1 (some "strtoull") [] ⟨"t5.c", 1, 7⟩))
    (.implicitCast (.declRef errnoVar ⟨"t5.c", 1, 25⟩)))
    (.compound []) none

/-- C6 counterexample, statement 2: `handle(errno);` — errno flows to a
handler in the immediately following statement. -/
def exC6s2 : Stmt :=
  .exprS (.callE 2 (some "handle")
    [.implicitCast (.declRef errnoVar ⟨"t5.c", 2, 10⟩)] ⟨"t5.c", 2, 3⟩)

/-- C6 counterexample call site. -/
def exC6site : CallSite := .inFunction (.compound [exC6s1, exC6s2])

/-- C3 counterexample, statement 1: `unsigned long x = strtoull("",0,10);`. -/
def exC3s1 : Stmt :=
  .declS [(xVar, some (.implicitCast (.callE 1 (some "strtoull") [] ⟨"t3.c", 1, 20⟩)))]

/-- C3 counterexample, statement 2: `int err = errno;`. -/
def exC3s2 : Stmt :=
  .declS [(errVar, some (.implicitCast (.declRef errnoVar ⟨"t3.c", 2, 11⟩)))]

/-- C3 counterexample A, statement 3: `handle(err);`. -/
def exC3s3A : Stmt :=
  .exprS (.callE 2 (some "handle")
    [.implicitCast (.declRef errVar ⟨"t3.c", 3, 10⟩)] ⟨"t3.c", 3, 3⟩)

/-- C3 counterexample B, statement 3: `return err;`. -/
def exC3s3B : Stmt :=
  .returnS (some (.implicitCast (.declRef errVar ⟨"t3.c", 3, 10⟩)))

/-- C3 counterexample site A. -/
def exC3siteA : CallSite := .inFunction (.compound [exC3s1, exC3s2, exC3s3A])

/-- C3 counterexample site B: identical to site A in the call statement and
its immediate successor, differing only in the third sibling. -/
def exC3siteB : CallSite := .inFunction (.compound [exC3s1, exC3s2, exC3s3B])

/-- C10 witness: a watched errno call in a file-scope initialiser,
`unsigned long g = strtoull("",0,10);` at translation-unit scope. -/
def exC10site : CallSite :=
  .inGlobalInit (.implicitCast (.callE 1 (some "strtoull") [] ⟨"t10.c", 1, 24⟩))

/-- C5 example: `errno = 0;` — a direct assignment, not a reference. -/
def errnoAssignStmt : Stmt :=
  .exprS (.binop .assign (.declRef errnoVar ⟨"t5b.c", 1, 1⟩) (.intLit 0))

/-- C5 example: `x == errno` used as a statement — a read of `errno`. -/
def errnoReadStmt : Stmt :=
  .exprS (.binop .other (.implicitCast (.declRef xVar ⟨"t5b.c", 2, 1⟩))
    (.implicitCast (.declRef errnoVar ⟨"t5b.c", 2, 6⟩)))

/-- C5 example: `*__errno_location();` — an accessor-based errno read. -/
def errnoAccessorStmt : Stmt :=
  .exprS (.unaryDeref (.callE 9 (some "__errno_location") [] ⟨"t5b.c", 3, 2⟩))

/-- C1 witness translation unit: `int main(){ malloc(4); }`. -/
def exC1tu : List TopDecl :=
  [.fnDecl (.compound [.exprS (.callE 1 (some "malloc") [.intLit 4] ⟨"t1.c", 1, 13⟩)])]

/-- The row the C1 witness translation unit produces. -/
def exC1row : Row := ⟨"malloc", "t1.c", 1, 13, "ignored", none⟩

/-- A concrete row used by the writer examples. -/
def exRow : Row := ⟨"malloc", "a.c", 3, 5, "ignored", none⟩

/-- A writer state with a previously latched sink error. -/
def erredWriter : SqliteWriterState := ⟨[], "Failed to insert row: disk full"⟩

theorem branchHandlingType_cases (b : Bool) :
    branchHandlingType b = HandlingType.kBranchedWithCatchall ∨
    branchHandlingType b = HandlingType.kBranchedNoCatchall := by
  cases b <;> simp [branchHandlingType]

theorem branchHandlingForErrnoCondition_shape (s : Stmt) :
    branchHandlingForErrnoCondition s = none ∨
    ∃ x, branchHandlingForErrnoCondition s = some (branchHandlingType x) := by
  unfold branchHandlingForErrnoCondition
  cases s
  case ifS c t e =>
    by_cases h : containsErrnoRefE c = true
    · exact Or.inr ⟨ifHasCatchall e, by simp [h]⟩
    · exact Or.inl (by simp [h])
  case switchS c b =>
    by_cases h : containsErrnoRefE c = true
    · exact Or.inr ⟨switchBodyHasDefault b, by simp [h]⟩
    · exact Or.inl (by simp [h])
  all_goals exact Or.inl rfl

theorem makeResult_type (t : HandlingType) : (makeResult t).type = t := rfl

theorem toHandlingResult_type (t : TrackingResult) :
    (toHandlingResult t).type = t.type := rfl

theorem analyzeErrnoStatement_fst_ne (cfg : Cfg) (s : Stmt) :
    (analyzeErrnoStatement cfg s).1 ≠ HandlingType.kIgnored ∧
    (analyzeErrnoStatement cfg s).1 ≠ HandlingType.kCastToVoid := by
  have hshape := branchHandlingForErrnoCondition_shape s
  unfold analyzeErrnoStatement
  by_cases h1 : (errnoUsageS cfg s).handler = true
  · simp [h1]
  · by_cases h2 : containsReturnOfErrno s = true
    · simp [h1, h2]
    · rcases hshape with h | ⟨x, h⟩
      · by_cases h3 : (findErrnoAssignmentInStatement s).isSome = true
        · simp [h1, h2, h, h3]
        · by_cases h4 : (errnoUsageS cfg s).other = true <;>
            simp [h1, h2, h, h3, h4]
      · rcases branchHandlingType_cases x with hx | hx <;> simp [h1, h2, h, hx]

theorem statementUseTail_false_ne_castToVoid (u : UseInfo) (s : Stmt) (vid : Nat) :
    statementUseTail u s vid false ≠ StatementUse.kCastToVoid := by
  unfold statementUseTail
  by_cases h1 : isExplicitVoidCastStatement s vid = true
  · simp [h1]
  · by_cases h2 : u.other = true
    · simp [h1, h2]
    · by_cases h3 : u.logger = true <;> simp [h1, h2, h3]

theorem rhsUseOf_ne_castToVoid (cfg : Cfg) (vid : Nat) (r : Expr) :
    rhsUseOf cfg vid r ≠ StatementUse.kCastToVoid := by
  unfold rhsUseOf
  by_cases h1 : (varUsageE cfg vid .kOther r).handler = true
  · simp [h1]
  · by_cases h2 : (varUsageE cfg vid .kOther r).other = true
    · simp [h1, h2]
    · by_cases h3 : (varUsageE cfg vid .kOther r).logger = true <;> simp [h1, h2, h3]

theorem declLoopForVar_ret_ne_castToVoid (cfg : Cfg) (vid : Nat) :
    ∀ (ds : List (VarInfo × Option Expr)) (c : Option (VarInfo × SrcLoc))
      (u : StatementUse),
      declLoopForVar cfg vid ds c = .ret u → u ≠ StatementUse.kCastToVoid := by
  intro ds
  induction ds with
  | nil =>
    intro c u h
    unfold declLoopForVar at h
    cases h
  | cons d rest ih =>
    intro c u h
    obtain ⟨v, oi⟩ := d
    cases oi with
    | none =>
      unfold declLoopForVar at h
      exact ih c u h
    | some i =>
      unfold declLoopForVar at h
      by_cases hc : containsVarRefE vid i = true
      all_goals simp [hc] at h
      · rcases hd : directVarRef i vid with _ | dl <;> rw [hd] at h
        · by_cases h1 : (varUsageE cfg vid .kOther i).handler = true
          · simp [h1] at h; exact h ▸ (by decide)
          · by_cases h2 : (varUsageE cfg vid .kOther i).other = true
            · simp [h1, h2] at h; exact h ▸ (by decide)
            · by_cases h3 : (varUsageE cfg vid .kOther i).logger = true <;>
                simp [h1, h2, h3] at h <;> exact h ▸ (by decide)
        · by_cases hl : v.localStorage = true
          · simp [hl] at h
            cases c with
            | none => exact ih _ u h
            | some p =>
              obtain ⟨cv, cl⟩ := p
              by_cases he : cv.vid = v.vid
              · simp [he] at h; exact ih _ u h
              · simp [he] at h; exact h ▸ (by decide)
          · simp [hl] at h
            by_cases h1 : (varUsageE cfg vid .kOther i).handler = true
            · simp [h1] at h; exact h ▸ (by decide)
            · by_cases h2 : (varUsageE cfg vid .kOther i).other = true
              · simp [h1, h2] at h; exact h ▸ (by decide)
              · by_cases h3 : (varUsageE cfg vid .kOther i).logger = true <;>
                  simp [h1, h2, h3] at h <;> exact h ▸ (by decide)
      · exact ih c u h

theorem analyzeStatementForVar_false_ne_castToVoid (cfg : Cfg) (s : Stmt) (v : VarInfo) :
    analyzeStatementForVar cfg s v false ≠ StatementUse.kCastToVoid := by
  unfold analyzeStatementForVar
  by_cases h1 : (varUsageS cfg v.vid s).handler = true
  · simp [h1]
  · by_cases h2 : containsReturnOfVar v.vid s = true
    · simp [h1, h2]
    · simp only [h1, h2, if_false, Bool.false_eq_true, if_neg, not_false_iff]
      cases hb : branchHandlingForVarCondition s v.vid with
      | some b =>
        simp only [hb]
        by_cases hw : b == HandlingType.kBranchedWithCatchall <;> simp [hw]
      | none =>
        simp only [hb]
        cases s with
        | declS ds =>
          cases hd : declLoopForVar cfg v.vid ds none with
          | ret u =>
            simp only [hd]
            exact declLoopForVar_ret_ne_castToVoid cfg v.vid ds none u hd
          | cand c =>
            simp only [hd]
            cases c with
            | none => exact statementUseTail_false_ne_castToVoid _ _ _
            | some p => obtain ⟨cv, cl⟩ := p; simp
        | exprS e =>
          cases e with
          | binop op l r =>
            cases op with
            | assign =>
              by_cases hk :
                  ((match asLocalVar l with
                    | some lv => lv.vid == v.vid
                    | none => false) && !containsVarRefE v.vid r) = true
              · simp [hk]
              · simp only [hk, Bool.false_eq_true, if_neg, not_false_iff]
                by_cases hr : containsVarRefE v.vid r = true
                · simp only [hr, if_true]
                  cases hdv : directVarRef r v.vid with
                  | none => exact rhsUseOf_ne_castToVoid cfg v.vid r
                  | some dl =>
                    cases hlv : asLocalVar l with
                    | none => exact rhsUseOf_ne_castToVoid cfg v.vid r
                    | some lv =>
                      by_cases hne : lv.vid != v.vid
                      · simp [hne]
                      · simp [hne]; exact rhsUseOf_ne_castToVoid cfg v.vid r
                · simp only [hr, Bool.false_eq_true, if_neg, not_false_iff]
                  exact statementUseTail_false_ne_castToVoid _ _ _
            | other => exact statementUseTail_false_ne_castToVoid _ _ _
          | declRef w lc => exact statementUseTail_false_ne_castToVoid _ _ _
          | intLit n => exact statementUseTail_false_ne_castToVoid _ _ _
          | callE c nm args lc => exact statementUseTail_false_ne_castToVoid _ _ _
          | paren x => exact statementUseTail_false_ne_castToVoid _ _ _
          | implicitCast x => exact statementUseTail_false_ne_castToVoid _ _ _
          | explicitCast b x => exact statementUseTail_false_ne_castToVoid _ _ _
          | cleanups x => exact statementUseTail_false_ne_castToVoid _ _ _
          | unaryDeref x => exact statementUseTail_false_ne_castToVoid _ _ _
          | unaryOther x => exact statementUseTail_false_ne_castToVoid _ _ _
        | _ => exact statementUseTail_false_ne_castToVoid _ _ _

theorem trackWalk_type_resolved (cfg : Cfg) (allow : Bool) :
    ∀ (stmts : List Stmt) (v : VarInfo) (loc : SrcLoc) (logged : Bool),
      (trackWalk cfg allow stmts v loc logged).type ≠ HandlingType.kNone ∧
      (trackWalk cfg allow stmts v loc logged).type ≠ HandlingType.kIgnored := by
  intro stmts
  induction stmts with
  | nil =>
    intro v loc logged
    unfold trackWalk
    by_cases h : logged = true <;> simp [h]
  | cons s rest ih =>
    intro v loc logged
    unfold trackWalk
    cases hu : analyzeStatementForVar cfg s v allow with
    | kNone => simp only [hu]; exact ih v loc logged
    | kLogged => simp only [hu]; exact ih v loc true
    | kPropagatedValue v2 l2 => simp only [hu]; exact ih v2 l2 logged
    | kKilled => simp only [hu]; by_cases h : logged = true <;> simp [h]
    | kBranchedNoCatchall => simp [hu]
    | kBranchedWithCatchall => simp [hu]
    | kPassedToHandlerFn => simp [hu]
    | kReturned => simp [hu]
    | kCastToVoid => simp [hu]
    | kUsedOther => simp [hu]

theorem trackWalk_false_ne_castToVoid (cfg : Cfg) :
    ∀ (stmts : List Stmt) (v : VarInfo) (loc : SrcLoc) (logged : Bool),
      (trackWalk cfg false stmts v loc logged).type ≠ HandlingType.kCastToVoid := by
  intro stmts
  induction stmts with
  | nil =>
    intro v loc logged
    unfold trackWalk
    by_cases h : logged = true <;> simp [h]
  | cons s rest ih =>
    intro v loc logged
    unfold trackWalk
    cases hu : analyzeStatementForVar cfg s v false with
    | kNone => simp only [hu]; exact ih v loc logged
    | kLogged => simp only [hu]; exact ih v loc true
    | kPropagatedValue v2 l2 => simp only [hu]; exact ih v2 l2 logged
    | kKilled => simp only [hu]; by_cases h : logged = true <;> simp [h]
    | kBranchedNoCatchall => simp [hu]
    | kBranchedWithCatchall => simp [hu]
    | kPassedToHandlerFn => simp [hu]
    | kReturned => simp [hu]
    | kCastToVoid =>
      exact absurd hu (analyzeStatementForVar_false_ne_castToVoid cfg s v)
    | kUsedOther => simp [hu]

theorem trackErrnoFrom_type_ne (cfg : Cfg) (s : Stmt) (rest : List Stmt) :
    (trackErrnoFrom cfg s rest).type ≠ HandlingType.kCastToVoid ∧
    (trackErrnoFrom cfg s rest).type ≠ HandlingType.kIgnored := by
  unfold trackErrnoFrom
  cases h1 : findErrnoAssignmentInStatement s with
  | some p =>
    obtain ⟨v, loc⟩ := p
    exact ⟨trackWalk_false_ne_castToVoid cfg rest v loc false,
      (trackWalk_type_resolved cfg false rest v loc false).2⟩
  | none =>
    cases rest with
    | nil => simp
    | cons nxt rest2 =>
      cases h2 : findErrnoAssignmentInStatement nxt with
      | some p =>
        obtain ⟨v, loc⟩ := p
        simp only [h2]
        exact ⟨trackWalk_false_ne_castToVoid cfg rest2 v loc false,
          (trackWalk_type_resolved cfg false rest2 v loc false).2⟩
      | none => simp [h2]

theorem analyzeErrnoMain_type_ne (cfg : Cfg) (s : Stmt) (rest : List Stmt) :
    (analyzeErrnoMain cfg s rest).type ≠ HandlingType.kIgnored ∧
    (analyzeErrnoMain cfg s rest).type ≠ HandlingType.kCastToVoid := by
  have hs := analyzeErrnoStatement_fst_ne cfg s
  have ht := trackErrnoFrom_type_ne cfg s rest
  unfold analyzeErrnoMain
  by_cases h1 : (analyzeErrnoStatement cfg s).1 = HandlingType.kNone
  · simp only [h1, bne_self_eq_false, Bool.false_eq_true, if_false]
    cases hr : rest.head? with
    | some nxt =>
      have hn := analyzeErrnoStatement_fst_ne cfg nxt
      by_cases h2 : (analyzeErrnoStatement cfg nxt).1 = HandlingType.kNone
      · simp only [hr, h2, bne_self_eq_false, Bool.false_eq_true, if_false]
        by_cases h3 : (trackErrnoFrom cfg s rest).type = HandlingType.kNone
        · simp only [toHandlingResult, h3, bne_self_eq_false, Bool.false_eq_true,
            if_false]
          by_cases h4 : ((analyzeErrnoStatement cfg s).2 ||
              (analyzeErrnoStatement cfg nxt).2) = true <;> simp [h4, makeResult]
        · simp only [toHandlingResult]
          rw [if_pos (by simp [bne_iff_ne, h3])]
          exact ⟨ht.2, ht.1⟩
      · simp only [hr]
        rw [if_pos (by simp [bne_iff_ne, h2])]
        exact ⟨hn.1, hn.2⟩
    | none =>
      simp only [hr, bne_self_eq_false, Bool.false_eq_true, if_false]
      by_cases h3 : (trackErrnoFrom cfg s rest).type = HandlingType.kNone
      · simp only [toHandlingResult, h3, bne_self_eq_false, Bool.false_eq_true,
          if_false]
        by_cases h4 : ((analyzeErrnoStatement cfg s).2 || false) = true <;>
          simp [h4, makeResult]
      · simp only [toHandlingResult]
        rw [if_pos (by simp [bne_iff_ne, h3])]
        exact ⟨ht.2, ht.1⟩
  · rw [if_pos (by simp [bne_iff_ne, h1])]
    exact hs

theorem errnoIgnoredCtx_some_iff (s : Stmt) (rest : List Stmt) :
    errnoIgnoredCtx (some (s, rest)) = true ↔
      ∀ x ∈ s :: rest.take 1, containsErrnoRefS x = false := by
  cases rest with
  | nil =>
    by_cases h : containsErrnoRefS s = true <;> simp [errnoIgnoredCtx, h]
  | cons n rest2 =>
    by_cases h : containsErrnoRefS s = true
    · simp [errnoIgnoredCtx, h]
    · by_cases h2 : containsErrnoRefS n = true <;>
        simp [errnoIgnoredCtx, h, h2]

theorem analyzeErrnoCtx_type_ignored_iff (cfg : Cfg) (ctx : Option (Stmt × List Stmt)) :
    ((analyzeErrnoCtx cfg ctx).type = HandlingType.kIgnored ↔
      errnoIgnoredCtx ctx = true) := by
  unfold analyzeErrnoCtx
  by_cases h : errnoIgnoredCtx ctx = true
  · rw [if_pos h]; simp [makeResult, h]
  · rw [if_neg h]
    cases ctx with
    | none => simp [errnoIgnoredCtx] at h
    | some p =>
      obtain ⟨s, rest⟩ := p
      simp only [h, Bool.false_eq_true, iff_false]
      exact (analyzeErrnoMain_type_ne cfg s rest).1

theorem analyzeErrnoCtx_type_ne_castToVoid (cfg : Cfg)
    (ctx : Option (Stmt × List Stmt)) :
    (analyzeErrnoCtx cfg ctx).type ≠ HandlingType.kCastToVoid := by
  unfold analyzeErrnoCtx
  by_cases h : errnoIgnoredCtx ctx = true
  · rw [if_pos h]; simp [makeResult]
  · rw [if_neg h]
    cases ctx with
    | none => simp [makeResult]
    | some p =>
      obtain ⟨s, rest⟩ := p
      exact (analyzeErrnoMain_type_ne cfg s rest).2

theorem handlingTypeName_mem_nine (t : HandlingType)
    (h : t ≠ HandlingType.kNone) : handlingTypeName t ∈ nineCategoryNames := by
  cases t
  · exact absurd rfl h
  all_goals decide

theorem trackErrnoFrom_of_no_assignment (cfg : Cfg) (s : Stmt) (r : List Stmt)
    (h1 : findErrnoAssignmentInStatement s = none)
    (h2 : ∀ nxt, r.head? = some nxt → findErrnoAssignmentInStatement nxt = none) :
    trackErrnoFrom cfg s r = ⟨HandlingType.kNone, none⟩ := by
  cases r with
  | nil => simp [trackErrnoFrom, h1]
  | cons nxt rest2 => simp [trackErrnoFrom, h1, h2 nxt rfl]

theorem analyzeErrnoStatement_of_handler (cfg : Cfg) (s : Stmt)
    (h : (errnoUsageS cfg s).handler = true) :
    analyzeErrnoStatement cfg s = (HandlingType.kPassedToHandlerFn, false) := by
  unfold analyzeErrnoStatement
  simp [h]

theorem emitRow_handlingType_mem (cfg : Cfg)
    (x : CallSite × Nat × String × ErrorReportingType × SrcLoc) :
    (emitRow cfg x).handlingType ∈ nineCategoryNames := by
  obtain ⟨site, cid, n, k, loc⟩ := x
  unfold emitRow
  by_cases ht : (classifyWatchedCall cfg site cid k loc).type = HandlingType.kNone
  · simp [ht]
    all_goals decide
  · simp [beq_iff_eq, ht]
    exact handlingTypeName_mem_nine _ ht

/-- C1: for every call to a watched (return-value or errno reporting)
function that the walker visits, classification succeeds and exactly one
record is emitted (one row per visited watched call), whose category is one
of the nine fixed category strings, `used_other` standing in whenever the
classifier produced no specific result. -/
theorem c1_every_watched_call_one_record (cfg : Cfg) (tu : List TopDecl)
    (row : Row) (h : row ∈ runWalkerTU cfg tu) :
    (runWalkerTU cfg tu).length = (watchedCallsOfTU cfg tu).length ∧
    row.handlingType ∈ nineCategoryNames := by
  refine ⟨by simp [runWalkerTU], ?_⟩
  unfold runWalkerTU at h
  rcases List.mem_map.mp h with ⟨x, hx, rfl⟩
  exact emitRow_handlingType_mem cfg x

/-- Witness for C1 at a concrete one-call translation unit. -/
theorem c1_every_watched_call_one_record_witness :
    (runWalkerTU cfgScen exC1tu).length = (watchedCallsOfTU cfgScen exC1tu).length ∧
    exC1row.handlingType ∈ nineCategoryNames :=
  c1_every_watched_call_one_record cfgScen exC1tu exC1row (by decide)

/-- C5: a watched errno-reporting call is classified *ignored* exactly when
neither its call statement nor the immediately following statement contains
an errno reference; a reference is a read of an identifier named `errno` or
a call to `__errno_location` / `__error`, and a direct assignment
`errno = ...` does not count (witnessed by the three concrete statements). -/
theorem c5_errno_ignored_characterisation (cfg : Cfg) (site : CallSite) (cid : Nat) :
    ((analyzeErrno cfg site cid).type = HandlingType.kIgnored ↔
      ∀ x ∈ errnoNeighborhood site cid, containsErrnoRefS x = false) ∧
    containsErrnoRefS errnoAssignStmt = false ∧
    containsErrnoRefS errnoReadStmt = true ∧
    containsErrnoRefS errnoAccessorStmt = true := by
  refine ⟨?_, by decide, by decide, by decide⟩
  unfold analyzeErrno errnoNeighborhood
  rw [analyzeErrnoCtx_type_ignored_iff]
  cases hc : findStatementInCompound site cid with
  | none => simp [errnoIgnoredCtx]
  | some p =>
    obtain ⟨s, rest⟩ := p
    exact errnoIgnoredCtx_some_iff s rest

/-- Witness for C5 at a concrete call site. -/
theorem c5_errno_ignored_characterisation_witness :
    (analyzeErrno cfgScen exC10site 1).type = HandlingType.kIgnored ↔
      ∀ x ∈ errnoNeighborhood exC10site 1, containsErrnoRefS x = false :=
  (c5_errno_ignored_characterisation cfgScen exC10site 1).1

/-- C7: an explicit cast-to-void of a locally copied errno value yields
*used_other*, never *cast_to_void*: spec scenario 6 evaluates to
*used_other*; the tracker's statement analysis accepts the void cast only
when the flag permits (return-value contracts) and rejects it otherwise;
and the errno classifier can never produce *cast_to_void* at all. -/
theorem c7_errno_cast_to_void_is_used_other :
    analyzeErrno cfgScen scen6site 1 = ⟨HandlingType.kUsedOther, none⟩ ∧
    analyzeStatementForVar cfgScen scen6s5 errVar true = StatementUse.kCastToVoid ∧
    analyzeStatementForVar cfgScen scen6s5 errVar false = StatementUse.kUsedOther ∧
    ∀ (cfg : Cfg) (site : CallSite) (cid : Nat),
      (analyzeErrno cfg site cid).type ≠ HandlingType.kCastToVoid := by
  refine ⟨rfl, rfl, rfl, ?_⟩
  intro cfg site cid
  exact analyzeErrnoCtx_type_ne_castToVoid cfg _

/-- Witness for C7 applying its universal part at a concrete site. -/
theorem c7_errno_cast_to_void_is_used_other_witness :
    analyzeErrno cfgScen scen6site 1 = ⟨HandlingType.kUsedOther, none⟩ ∧
    (analyzeErrno cfgScen exC10site 1).type ≠ HandlingType.kCastToVoid :=
  ⟨c7_errno_cast_to_void_is_used_other.1,
   c7_errno_cast_to_void_is_used_other.2.2.2 cfgScen exC10site 1⟩

/-- C8: the local-propagation tracker walks only the sibling statements that
follow its starting statement inside the starting compound block (the walk
is a function of exactly that suffix); it always terminates with a definite
outcome; and reaching the end of the block yields *logged_not_handled* when
a logger use was seen and otherwise *assigned_not_read* carrying the last
recorded assignment location. -/
theorem c8_tracker_block_local_terminates (cfg : Cfg) (allow : Bool)
    (v : VarInfo) (loc : SrcLoc) (logged : Bool) :
    (trackWalk cfg allow [] v loc logged =
      if logged then ⟨HandlingType.kLoggedNotHandled, none⟩
      else ⟨HandlingType.kAssignedNotRead, some loc⟩) ∧
    (∀ stmts : List Stmt,
      (trackWalk cfg allow stmts v loc logged).type ≠ HandlingType.kNone) ∧
    (∀ (site : CallSite) (cid : Nat) (s : Stmt) (rest : List Stmt),
      findStatementInCompound site cid = some (s, rest) →
      trackErrnoAssignment cfg site cid = trackErrnoFrom cfg s rest) := by
  refine ⟨rfl, ?_, ?_⟩
  · intro stmts
    exact (trackWalk_type_resolved cfg allow stmts v loc logged).1
  · intro site cid s rest h
    unfold trackErrnoAssignment
    rw [h]

/-- Witness for C8 at spec scenario 6. -/
theorem c8_tracker_block_local_terminates_witness :
    (trackWalk cfgScen false [] errVar ⟨"t6.c", 2, 11⟩ false =
      ⟨HandlingType.kAssignedNotRead, some ⟨"t6.c", 2, 11⟩⟩) ∧
    trackErrnoAssignment cfgScen scen6site 1 =
      trackErrnoFrom cfgScen scen6s1 [scen6s2, scen6s3, scen6s4, scen6s5, scen6s6] := by
  have h := c8_tracker_block_local_terminates cfgScen false errVar ⟨"t6.c", 2, 11⟩ false
  exact ⟨by simpa using h.1, h.2.2 scen6site 1 scen6s1 _ rfl⟩

/-- C9: once a sink failure latches the sticky error, every subsequent
insert is a no-op that writes nothing and leaves the first recorded error
message in place, and the engine's exit code at end of run is the non-zero
`EXIT_FAILURE`. -/
theorem c9_sticky_sink_error (w : SqliteWriterState) (r0 : Row)
    (f : Option String) (tr : Nat) (h : w.errorMessage ≠ "") :
    insertCall w r0 f = (w, false) ∧
    (∀ ops : List (Row × Option String),
      ops.foldl (fun a p => (insertCall a p.1 p.2).1) w = w) ∧
    mainExitCode w tr = 1 ∧ (1 : Nat) ≠ 0 := by
  have hb : (w.errorMessage != "") = true := by simp [bne_iff_ne, h]
  have hins : ∀ (r : Row) (f2 : Option String), insertCall w r f2 = (w, false) := by
    intro r f2
    unfold insertCall
    rw [if_pos hb]
  refine ⟨hins r0 f, ?_, ?_, by decide⟩
  · intro ops
    induction ops with
    | nil => rfl
    | cons p rest ih =>
      simp only [List.foldl_cons, hins p.1 p.2]
      exact ih
  · unfold mainExitCode
    rw [if_pos hb]

/-- Witness for C9 at a concrete latched writer. -/
theorem c9_sticky_sink_error_witness :
    insertCall erredWriter exRow none = (erredWriter, false) ∧
    mainExitCode erredWriter 0 = 1 := by
  have h := c9_sticky_sink_error erredWriter exRow none 0 (by decide)
  exact ⟨h.1, h.2.2.1⟩

/-- C10: a watched errno-reporting call whose parent chain reaches no
compound-block statement (e.g. a call in a file-scope initialiser) is always
classified *ignored*. -/
theorem c10_no_enclosing_statement_ignored (cfg : Cfg) (site : CallSite)
    (cid : Nat) (h : findStatementInCompound site cid = none) :
    analyzeErrno cfg site cid = makeResult HandlingType.kIgnored := by
  unfold analyzeErrno
  rw [h]
  rfl

/-- Witness for C10 at a watched call inside a file-scope initialiser. -/
theorem c10_no_enclosing_statement_ignored_witness :
    findStatementInCompound exC10site 1 = none ∧
    analyzeErrno cfgScen exC10site 1 = makeResult HandlingType.kIgnored :=
  ⟨rfl, c10_no_enclosing_statement_ignored cfgScen exC10site 1 rfl⟩

/-- C4 counterexample: at `(void)(malloc(1) + 0);` the source emits
*cast_to_void* although the spec's wrapper-only walk never reaches the cast
(the call's parent is a non-wrapper binary operator), so the claimed
"exactly when" fails. -/
theorem c4_cast_to_void_counterexample :
    analyzeReturnValue cfgScen exC4site 1 ⟨"t4.c", 1, 10⟩ =
      makeResult HandlingType.kCastToVoid ∧
    specTopmostWrapperIsVoidCast exC4site 1 = false :=
  ⟨rfl, rfl⟩

/-- C4 as amended: the source's walk moves through every parent expression
(not only wrappers); whenever the topmost enclosing expression is, after
stripping parentheses and implicit casts, an explicit cast to void, the
return-value classifier emits *cast_to_void*, and the rule has highest
precedence (no other rule is consulted). -/
theorem c4_cast_to_void_amended (cfg : Cfg) (site : CallSite) (cid : Nat)
    (loc : SrcLoc) (h : isTopLevelExplicitVoidCast site cid = true) :
    analyzeReturnValue cfg site cid loc = makeResult HandlingType.kCastToVoid := by
  unfold analyzeReturnValue
  rw [if_pos h]

/-- Witness for the amended C4 at `(void)malloc(1);`. -/
theorem c4_cast_to_void_amended_witness :
    isTopLevelExplicitVoidCast exC4wSite 2 = true ∧
    analyzeReturnValue cfgScen exC4wSite 2 ⟨"t4.c", 2, 9⟩ =
      makeResult HandlingType.kCastToVoid :=
  ⟨rfl, c4_cast_to_void_amended cfgScen exC4wSite 2 ⟨"t4.c", 2, 9⟩ rfl⟩

/-- C6 counterexample: errno flows to a handler in the statement following
the call statement, yet the call statement's branched match wins, so the
handler rule does not take precedence across the two statements. -/
theorem c6_handler_precedence_counterexample :
    isErrnoIgnored exC6site 1 = false ∧
    (errnoUsageS cfgScen exC6s2).handler = true ∧
    errnoNeighborhood exC6site 1 = [exC6s1, exC6s2] ∧
    analyzeErrno cfgScen exC6site 1 = makeResult HandlingType.kBranchedNoCatchall ∧
    makeResult HandlingType.kBranchedNoCatchall ≠
      makeResult HandlingType.kPassedToHandlerFn :=
  ⟨rfl, rfl, rfl, rfl, by decide⟩

/-- C6 as amended: within a single statement the handler rule has highest
precedence (a handler use forces *passed_to_handler_fn* no matter what else
the statement matches), and the two statements are analysed in order, so a
handler use in the following statement wins only when the call statement
itself produced no classification. -/
theorem c6_handler_precedence_amended (cfg : Cfg) (s : Stmt) (rest : List Stmt)
    (hig : errnoIgnoredCtx (some (s, rest)) = false) :
    ((errnoUsageS cfg s).handler = true →
      analyzeErrnoCtx cfg (some (s, rest)) =
        makeResult HandlingType.kPassedToHandlerFn) ∧
    (∀ nxt, rest.head? = some nxt →
      (analyzeErrnoStatement cfg s).1 = HandlingType.kNone →
      (errnoUsageS cfg nxt).handler = true →
      analyzeErrnoCtx cfg (some (s, rest)) =
        makeResult HandlingType.kPassedToHandlerFn) := by
  have hig2 : ¬ errnoIgnoredCtx (some (s, rest)) = true := by simp [hig]
  constructor
  · intro hh
    unfold analyzeErrnoCtx
    rw [if_neg hig2]
    show analyzeErrnoMain cfg s rest = makeResult HandlingType.kPassedToHandlerFn
    unfold analyzeErrnoMain
    rw [analyzeErrnoStatement_of_handler cfg s hh]
    rfl
  · intro nxt hn h1 hh
    unfold analyzeErrnoCtx
    rw [if_neg hig2]
    show analyzeErrnoMain cfg s rest = makeResult HandlingType.kPassedToHandlerFn
    unfold analyzeErrnoMain
    simp only [h1, hn, analyzeErrnoStatement_of_handler cfg nxt hh]
    rfl

/-- Witness for the amended C6: a handler use of errno in the statement
after the call statement. -/
theorem c6_handler_precedence_amended_witness :
    analyzeErrnoCtx cfgScen (some (exC3s1, [exC6s2])) =
      makeResult HandlingType.kPassedToHandlerFn :=
  (c6_handler_precedence_amended cfgScen exC3s1 [exC6s2] rfl).2 exC6s2 rfl rfl rfl

/-- C3 counterexample: two programs identical in the call statement and its
immediate successor but differing in the third sibling statement are
classified differently, so the errno classification does inspect a third
sibling (through the local-propagation tracker). -/
theorem c3_two_statement_scope_counterexample :
    findStatementInCompound exC3siteA 1 = some (exC3s1, [exC3s2, exC3s3A]) ∧
    findStatementInCompound exC3siteB 1 = some (exC3s1, [exC3s2, exC3s3B]) ∧
    analyzeErrno cfgScen exC3siteA 1 = makeResult HandlingType.kPassedToHandlerFn ∧
    analyzeErrno cfgScen exC3siteB 1 = makeResult HandlingType.kPropagated ∧
    makeResult HandlingType.kPassedToHandlerFn ≠ makeResult HandlingType.kPropagated :=
  ⟨rfl, rfl, rfl, rfl, by decide⟩

/-- C3 as amended: rule selection (the ignored check, the per-statement
analysis, and the detection of an errno-to-local assignment) inspects only
the call statement and its immediate successor; only when one of those two
statements contains an errno-to-local assignment does the local-propagation
tracker walk further siblings.  Formally: when neither of the two statements
contains such an assignment, the classification is a function of those two
statements alone. -/
theorem c3_two_statement_scope_amended (cfg : Cfg) (s : Stmt)
    (r1 r2 : List Stmt) (hh : r1.head? = r2.head?)
    (h1 : findErrnoAssignmentInStatement s = none)
    (h2 : ∀ nxt, r1.head? = some nxt → findErrnoAssignmentInStatement nxt = none) :
    analyzeErrnoCtx cfg (some (s, r1)) = analyzeErrnoCtx cfg (some (s, r2)) := by
  have h2b : ∀ nxt, r2.head? = some nxt → findErrnoAssignmentInStatement nxt = none :=
    fun nxt hx => h2 nxt (hh.trans hx)
  have t1 := trackErrnoFrom_of_no_assignment cfg s r1 h1 h2
  have t2 := trackErrnoFrom_of_no_assignment cfg s r2 h1 h2b
  have hig : errnoIgnoredCtx (some (s, r1)) = errnoIgnoredCtx (some (s, r2)) := by
    show (if containsErrnoRefS s = true then false
          else
            match r1.head? with
            | some nxt => !containsErrnoRefS nxt
            | none => true) =
        (if containsErrnoRefS s = true then false
          else
            match r2.head? with
            | some nxt => !containsErrnoRefS nxt
            | none => true)
    rw [hh]
  unfold analyzeErrnoCtx
  rw [hig]
  by_cases hg : errnoIgnoredCtx (some (s, r2)) = true
  · rw [if_pos hg, if_pos hg]
  · rw [if_neg hg, if_neg hg]
    show analyzeErrnoMain cfg s r1 = analyzeErrnoMain cfg s r2
    unfold analyzeErrnoMain
    rw [t1, t2, hh]

/-- Witness for the amended C3: dropping statements after the inspected pair
does not change the classification. -/
theorem c3_two_statement_scope_amended_witness :
    analyzeErrnoCtx cfgScen (some (exC3s1, [errnoReadStmt, scen6s3])) =
      analyzeErrnoCtx cfgScen (some (exC3s1, [errnoReadStmt])) :=
  c3_two_statement_scope_amended cfgScen exC3s1 [errnoReadStmt, scen6s3]
    [errnoReadStmt] rfl rfl
    (fun nxt h => by
      rw [List.head?_cons] at h
      injection h with h
      rw [← h]
      rfl)

/-- C2 counterexample: the emitter performs no in-memory deduplication and
the `watched_calls` schema declares no uniqueness constraint, so inserting
the same record twice succeeds twice and yields two rows sharing the
(name, filename, line, column, handling_type) tuple. -/
theorem c2_no_dedup_counterexample :
    (insertCall ⟨[], ""⟩ exRow none).2 = true ∧
    (insertCall (insertCall ⟨[], ""⟩ exRow none).1 exRow none).2 = true ∧
    (insertCall (insertCall ⟨[], ""⟩ exRow none).1 exRow none).1.rows =
      [exRow, exRow] ∧
    ¬ ((insertCall (insertCall ⟨[], ""⟩ exRow none).1 exRow none).1.rows.map
        Row.key).Nodup ∧
    watchedCallsSchema.uniqueConstraints = [] :=
  ⟨rfl, rfl, rfl, by decide, rfl⟩

/-- C2 as amended: within one run each classified call results in one insert
attempt; while no sink error is latched every insert appends its row
unconditionally (no duplicate is dropped in memory), and the table schema
declares no uniqueness constraint, so duplicate tuples persist as separate
rows distinguished only by the autoincrementing id. -/
theorem c2_no_dedup_amended (w : SqliteWriterState) (r : Row)
    (h : w.errorMessage = "") :
    insertCall w r none = ({ w with rows := w.rows ++ [r] }, true) ∧
    watchedCallsSchema.uniqueConstraints = [] := by
  refine ⟨?_, rfl⟩
  unfold insertCall
  rw [if_neg (by simp [h])]

/-- Witness for the amended C2. -/
theorem c2_no_dedup_amended_witness :
    insertCall ⟨[], ""⟩ exRow none = (⟨[exRow], ""⟩, true) ∧
    watchedCallsSchema.uniqueConstraints = [] := by
  have h := c2_no_dedup_amended ⟨[], ""⟩ exRow rfl
  exact ⟨by rw [h.1]; rfl, h.2⟩
